import Mathlib

/-!
# Verification of the white_mirror service-agent core

Shallow embedding of the port-allocation / lifecycle core of the
`white_mirror_service_agent` repository (files `agent/discovery.py`,
`agent/models.py`, `agent/service_manager.py`, `agent/port_configurator.py`),
together with proofs and refutations of the frozen specification claims.

Conventions of the embedding:
* Python `dict[str, T]` (insertion ordered) is modelled as an association
  list `List (String × T)`; `lookupA` is `dict.get` (first binding wins,
  and `insertA` keeps at most one binding per key), `insertA` is
  `d[k] = v` (replace in place, else append).
* Python sets of ports are modelled as `List Int` with membership tests.
* The OS probe `is_port_in_use` and process/HTTP behaviour are oracles
  passed in as parameters (`inUse : Int → Bool`, outcome values).
* Filesystem contents (`.env`, `.env.example`, `README.md` of a service
  folder) are explicit `Folder` values threaded through the functions.
* Strings are handled as `List Char` internally; only the ASCII behaviour
  of Python `str.lower` / `str.strip` / `str.isdigit` / `\s` / `\d` is
  modelled, which covers everything the claims quantify over.
-/

namespace ServiceAgent

/-! ## Basic Python-string helpers -/

/-- ASCII decimal digit, Python's `\d` (ASCII part) and `str.isdigit`. -/
def isAsciiDigit (c : Char) : Bool := '0' ≤ c && c ≤ '9'

/-- Python `\s` / `str.strip()` whitespace (ASCII part): space, `\t`, `\n`,
`\r`, `\f`, `\v`. -/
def isPySpace (c : Char) : Bool :=
  c = ' ' || c = '\t' || c = '\n' || c = '\x0d' || c = '\x0c' || c = '\x0b'

/-- Python `str.lower` on ASCII characters. -/
def pyLower (c : Char) : Char :=
  if 'A' ≤ c && c ≤ 'Z' then Char.ofNat (c.toNat + 32) else c

/-- Strip the characters satisfying `p` from both ends of a character list
(Python `str.strip(chars)`). -/
def stripWith (p : Char → Bool) (s : List Char) : List Char :=
  ((s.dropWhile p).reverse.dropWhile p).reverse

/-- Python `str.strip()` (whitespace). -/
def pyStrip (s : List Char) : List Char := stripWith isPySpace s

/-- Whether a character occurs in the list (Python `c in s`). -/
def strContains (s : List Char) (c : Char) : Bool := s.contains c

/-- The part of `s` before the first occurrence of `c`
(Python `s.split(c)[0]` / first component of `s.partition(c)`). -/
def takeUntilChar (c : Char) (s : List Char) : List Char := s.takeWhile (· ≠ c)

/-- The part of `s` after the first occurrence of `c`
(Python third component of `s.partition(c)`); empty if `c` is absent. -/
def dropThroughChar (c : Char) (s : List Char) : List Char :=
  match s.dropWhile (· ≠ c) with
  | [] => []
  | _ :: rest => rest

/-! ## Association-list primitives (Python `dict`) -/

/-- `dict.get k` / `k in d`: first binding for `k`. -/
def lookupA {κ α : Type} [DecidableEq κ] (k : κ) : List (κ × α) → Option α
  | [] => none
  | (k', v) :: rest => if k' = k then some v else lookupA k rest

/-- `d[k] = v`: replace the binding in place if present, else append.
Keeps insertion order, like a Python `dict`. -/
def insertA {κ α : Type} [DecidableEq κ] (k : κ) (v : α) : List (κ × α) → List (κ × α)
  | [] => [(k, v)]
  | (k', v') :: rest => if k' = k then (k, v) :: rest else (k', v') :: insertA k v rest


/-! ## The id sanitizer (`ServiceDiscovery._sanitize_id`, discovery.py:85-90)

Python source:
```
sanitized = name.lower()
sanitized = re.sub(r"[^a-z0-9_-]", "_", sanitized)
sanitized = re.sub(r"_+", "_", sanitized)
sanitized = sanitized.strip("_-")
```
-/

/-- Characters allowed by the sanitizer's class `[a-z0-9_-]`. -/
def isIdChar (c : Char) : Bool :=
  ('a' ≤ c && c ≤ 'z') || ('0' ≤ c && c ≤ '9') || c = '_' || c = '-'

/-- `re.sub(r"_+", "_", s)`: collapse each maximal run of `'_'` to one. -/
def collapseUnderscores : List Char → List Char
  | [] => []
  | [c] => [c]
  | a :: b :: rest =>
    if a = '_' && b = '_' then collapseUnderscores (b :: rest)
    else a :: collapseUnderscores (b :: rest)

/-- `str.strip("_-")`. -/
def stripSep (s : List Char) : List Char := stripWith (fun c => c = '_' || c = '-') s

/-- `ServiceDiscovery._sanitize_id` (discovery.py:85-90). -/
def sanitizeId (name : String) : String :=
  let s1 := name.toList.map pyLower
  let s2 := s1.map (fun c => if isIdChar c then c else '_')
  let s3 := collapseUnderscores s2
  String.mk (stripSep s3)

/-- No two adjacent underscores: the "collapsed separators" shape. -/
def noDoubleUS (a b : Char) : Prop := ¬(a = '_' ∧ b = '_')


/-! ## Python `int(...)` (used on environment-file values)

`int(s)` on an ASCII string: optional surrounding whitespace, an optional
sign, then decimal digits where single underscores may separate digits
(`int("1_000") == 1000`, while `int("_1")`, `int("1_")`, `int("1__0")`,
`int("")`, `int("8x")`, `int("80.5")` all raise `ValueError`). -/

def digitsValAux : Nat → List Char → Option Nat
  | acc, [] => some acc
  | acc, c :: cs =>
    if isAsciiDigit c then digitsValAux (10 * acc + (c.toNat - 48)) cs
    else if c = '_' then
      match cs with
      | [] => none
      | d :: cs' =>
        if isAsciiDigit d then digitsValAux (10 * acc + (d.toNat - 48)) cs' else none
    else none

def digitsVal : List Char → Option Nat
  | [] => none
  | c :: cs => if isAsciiDigit c then digitsValAux (c.toNat - 48) cs else none

/-- Python `int(s)` for ASCII strings (returns `none` where Python raises
`ValueError`). -/
def pyParseInt (s : String) : Option Int :=
  match pyStrip s.toList with
  | '+' :: rest => (digitsVal rest).map (fun n => (n : Int))
  | '-' :: rest => (digitsVal rest).map (fun n => -(n : Int))
  | rest => (digitsVal rest).map (fun n => (n : Int))

/-! ## Data model (models.py)

`PortConfig`, `ServiceCapability` and `Service`, restricted to the fields
the verified operations read or write.  Process handles, timestamps, log
buffers and the resource minimums are not representable values; the
process handle is modelled by its presence (`hasProcess`), and the
resource gate / OS interactions are oracle parameters of the lifecycle
functions. -/

structure PortConfig where
  default : Int
  env_var : Option String := none
  cli_arg : Option String := none
  description : String := ""
  deriving DecidableEq

/-- One entry of `ServiceCapability.environment` (a Python dict with keys
`name` and `default`; either may be missing — `var.get("name")`,
`var.get("default", "")`). -/
structure EnvDecl where
  name : Option String := none
  defaultVal : String := ""
  deriving DecidableEq

structure ServiceCapability where
  ports : List (String × PortConfig) := []
  environment : List EnvDecl := []
  health_check_path : Option String := none
  deriving DecidableEq

inductive ServiceStatus
  | discovered | ready | starting | running | stopping | stopped | failed | error
  deriving DecidableEq

structure Service where
  id : String
  status : ServiceStatus := .discovered
  capability : Option ServiceCapability := none
  pid : Option Int := none
  hasProcess : Bool := false
  assigned_ports : List (String × Int) := []
  error : Option String := none
  health_status : String := "unknown"
  deriving DecidableEq

/-- `Service.is_running` (models.py:133-134). -/
def Service.is_running (s : Service) : Bool := s.status = .running

/-- The on-disk contents of one service folder: `.env`, `.env.example`
and `README.md` (each `none` when the file does not exist). -/
structure Folder where
  envLines : Option (List String) := none
  envExampleLines : Option (List String) := none
  readme : Option String := none
  deriving DecidableEq

/-- A registry entry: the `Service` plus its folder's file contents. -/
structure SvcEntry where
  svc : Service
  folder : Folder
  deriving DecidableEq

/-! ## Environment-file parsing

`PortConfigurator._parse_env_file` (port_configurator.py:44-56); the same
code is inlined in `ServiceManager._get_configured_ports`
(service_manager.py:349-362). -/

/-- `value.strip().strip(DQUOTE).strip(SQUOTE)`. -/
def stripQuotes (s : List Char) : List Char :=
  stripWith (· = '\x27') (stripWith (· = '"') (pyStrip s))

def parseEnvLines (lines : List String) : List (String × String) :=
  lines.foldl (fun acc line =>
    let l := pyStrip line.toList
    if l = [] then acc
    else if l.head? = some '#' then acc
    else if strContains l '=' then
      insertA (String.mk (pyStrip (takeUntilChar '=' l)))
        (String.mk (stripQuotes (dropThroughChar '=' l))) acc
    else acc) []

/-- `PortConfigurator.read_env_file` (port_configurator.py:36-42): falls
back to `.env.example` when `.env` is absent. -/
def readEnvFile (folder : Folder) : List (String × String) :=
  match folder.envLines with
  | some ls => parseEnvLines ls
  | none =>
    match folder.envExampleLines with
    | some ls => parseEnvLines ls
    | none => []

/-- The env vars `ServiceManager._get_configured_ports` reads: `.env`
only, no `.env.example` fallback (service_manager.py:346-362). -/
def managerEnvVars (folder : Folder) : List (String × String) :=
  match folder.envLines with
  | some ls => parseEnvLines ls
  | none => []

/-- Python truthiness of an optional string (`if env_var:`). -/
def optStrTruthy : Option String → Bool
  | none => false
  | some s => s ≠ ""

/-- The per-port resolution snippet that appears verbatim in
`ServiceManager._get_configured_ports` (service_manager.py:369-375),
`PortConfigurator.get_current_port_config` (port_configurator.py:262-268)
and `PortConfigurator.get_configured_port_conflicts`
(port_configurator.py:344-350):

```
if env_var and env_var in env_vars:
    try: port = int(env_vars[env_var])
    except ValueError: port = default_port
else:
    port = default_port
``` -/
def envConfiguredPort (envVars : List (String × String)) (pc : PortConfig) : Int :=
  match pc.env_var with
  | some ev =>
    if ev ≠ "" then
      match lookupA ev envVars with
      | some v =>
        match pyParseInt v with
        | some n => n
        | none => pc.default
      | none => pc.default
    else pc.default
  | none => pc.default

/-- `ServiceManager._get_configured_ports` (service_manager.py:342-377). -/
def getConfiguredPorts (entry : SvcEntry) : List (String × Int) :=
  match entry.svc.capability with
  | none => []
  | some cap =>
    let envVars := managerEnvVars entry.folder
    cap.ports.foldl (fun acc kp => insertA kp.1 (envConfiguredPort envVars kp.2) acc) []

/-- One value of the dict returned by
`PortConfigurator.get_current_port_config`. -/
structure PortKeyConfig where
  env_var : Option String
  defaultPort : Int
  configured : Int
  is_default : Bool
  deriving DecidableEq

/-- `PortConfigurator.get_current_port_config` (port_configurator.py:249-277). -/
def getCurrentPortConfig (entry : SvcEntry) : Option (List (String × PortKeyConfig)) :=
  match entry.svc.capability with
  | none => none
  | some cap =>
    let envVars := readEnvFile entry.folder
    some (cap.ports.foldl (fun acc kp =>
      insertA kp.1
        { env_var := kp.2.env_var
          defaultPort := kp.2.default
          configured := envConfiguredPort envVars kp.2
          is_default := envConfiguredPort envVars kp.2 == kp.2.default } acc) [])

/-- The pre-filter accumulation of
`PortConfigurator.get_configured_port_conflicts`
(port_configurator.py:330-354): every `service:port_key` pair filed under
the port it currently resolves to. -/
def conflictsAccum (entries : List SvcEntry) : List (Int × List String) :=
  entries.foldl (fun conflicts entry =>
    match entry.svc.capability with
    | none => conflicts
    | some cap =>
      let envVars := readEnvFile entry.folder
      cap.ports.foldl (fun conflicts kp =>
        let port := envConfiguredPort envVars kp.2
        match lookupA port conflicts with
        | some tags => insertA port (tags ++ [entry.svc.id ++ ":" ++ kp.1]) conflicts
        | none => conflicts ++ [(port, [entry.svc.id ++ ":" ++ kp.1])]) conflicts) []

/-- `PortConfigurator.get_configured_port_conflicts`
(port_configurator.py:329-358): keep only ports claimed more than once. -/
def getConfiguredPortConflicts (entries : List SvcEntry) : List (Int × List String) :=
  (conflictsAccum entries).filter (fun pr => pr.2.length > 1)


/-! ## Lifecycle: stop (`ServiceManager.stop_service`, service_manager.py:196-235) -/

/-- Outcome of the OS-level termination sequence: the process exited
after the graceful signal within the timeout, only after the escalation
to `kill`, or an exception was raised while signalling. -/
inductive StopOutcome
  | graceful
  | forceKill
  | sigError (msg : String)
  deriving DecidableEq

/-- `ServiceManager.stop_service` on a service found in the registry.
Returns the mutated service and the re-raised exception message, if
any.  (The unknown-id case raises `ValueError` before touching any
service and is not modelled here.) -/
def stopService (svc : Service) (outcome : StopOutcome) : Service × Option String :=
  if !svc.hasProcess then
    ({ svc with status := .stopped }, none)
  else
    let svc1 := { svc with status := .stopping }
    match outcome with
    | .graceful | .forceKill =>
      ({ svc1 with status := .stopped, pid := none, hasProcess := false,
                   assigned_ports := [] }, none)
    | .sigError msg =>
      ({ svc1 with status := .failed, error := some msg }, some msg)

/-- `ServiceManager.stop_all_services` (service_manager.py:253-260):
stop every running service, swallowing (logging) per-service
exceptions.  The Python method returns `None`; the model returns the
mutated registry. -/
def stopAllServices (outcomes : String → StopOutcome) (services : List Service) :
    List Service :=
  services.map (fun s => if s.is_running then (stopService s (outcomes s.id)).1 else s)

/-! ## Lifecycle: start (`ServiceManager.start_service`, service_manager.py:44-145) -/

/-- How the spawned child behaves during the readiness window: it exits
with a code, it stays alive and (when polled) answers the health check
with 200 in time, or it stays alive but never becomes ready before the
poll timeout. -/
inductive ProcBehavior
  | exits (code : Int)
  | respondsOk
  | neverReady
  deriving DecidableEq

/-- Environment oracles of one `start_service` call: the resource gate's
verdict, the result of `subprocess.Popen` (error message or child pid),
and the child's behaviour. -/
structure StartOracle where
  resourceOk : Bool
  resourceReason : String := ""
  spawn : Except String Int := .ok 0
  behavior : ProcBehavior := .respondsOk

/-- One iteration of the port loop of `start_service`
(service_manager.py:71-78): resolve the port for one declared key
(override wins, else configured, else default) and export it under the
declared env var when that is truthy. -/
def portStep (configured : List (String × Int))
    (st : List (String × Int) × List (String × String)) (kp : String × PortConfig) :
    List (String × Int) × List (String × String) :=
  let pval : Int :=
    match lookupA kp.1 st.1 with
    | some p => p
    | none => (lookupA kp.1 configured).getD kp.2.default
  let assigned :=
    match lookupA kp.1 st.1 with
    | some _ => st.1
    | none => insertA kp.1 pval st.1
  let env :=
    if optStrTruthy kp.2.env_var then
      insertA (kp.2.env_var.getD "") (toString pval) st.2
    else st.2
  (assigned, env)

/-- `assigned_ports = port_assignments or {}` (service_manager.py:70). -/
def effOverrides (overrides : Option (List (String × Int))) : List (String × Int) :=
  match overrides with | some l => l | none => []

/-- The port/env resolution loop of `start_service`
(service_manager.py:70-78): fill every declared port key missing from
the overrides with the configured (else default) port, and export each
port under its declared env var. -/
def resolvePortsAndEnv (configured : List (String × Int))
    (parentEnv : List (String × String)) (ports : List (String × PortConfig))
    (overrides : Option (List (String × Int))) :
    List (String × Int) × List (String × String) :=
  ports.foldl (portStep configured) (effOverrides overrides, parentEnv)

/-- The environment-defaults loop of `start_service`
(service_manager.py:80-84): inject each declared variable's default for
truthy names not already present. -/
def envDeclStep (env : List (String × String)) (d : EnvDecl) : List (String × String) :=
  match d.name with
  | some n =>
    if n = "" then env
    else
      match lookupA n env with
      | some _ => env
      | none => insertA n d.defaultVal env
  | none => env

def injectEnvDefaults (decls : List EnvDecl) (env : List (String × String)) :
    List (String × String) :=
  decls.foldl envDeclStep env

/-- Result of a `start_service` call: the mutated service, the raised
exception message (if any), and the environment handed to
`subprocess.Popen` (if a spawn happened). -/
structure StartResult where
  svc : Service
  raised : Option String := none
  spawnedEnv : Option (List (String × String)) := none
  deriving DecidableEq

/-- Python truthiness of `assigned_ports.get("api")` in `_wait_for_ready`
(service_manager.py:151-153): missing or `0` are both falsy. -/
def apiPortTruthy (assigned : List (String × Int)) : Bool :=
  match lookupA "api" assigned with
  | some p => p != 0
  | none => false

/-- `ServiceManager.start_service` (service_manager.py:44-145) on a
service found in the registry.  Timestamps, log capture and the venv
interpreter substitution in the command string are not modelled (they do
not affect any claim); process spawning and readiness are oracles. -/
def startService (oracle : StartOracle) (parentEnv : List (String × String))
    (entry : SvcEntry) (overrides : Option (List (String × Int))) : StartResult :=
  match entry.svc.capability with
  | none =>
    { svc := entry.svc,
      raised := some ("Service " ++ entry.svc.id ++ " has no CAPABILITY.yaml") }
  | some cap =>
    if entry.svc.is_running then
      { svc := entry.svc,
        raised := some ("Service " ++ entry.svc.id ++ " is already running") }
    else if !oracle.resourceOk then
      { svc := entry.svc,
        raised := some ("Cannot start " ++ entry.svc.id ++ ": " ++ oracle.resourceReason) }
    else
      let st := resolvePortsAndEnv (getConfiguredPorts entry) parentEnv cap.ports overrides
      let env2 := injectEnvDefaults cap.environment st.2
      let svc1 := { entry.svc with status := .starting, assigned_ports := st.1, error := none }
      match oracle.spawn with
      | .error e =>
        { svc := { svc1 with status := .failed, error := some e }, raised := some e }
      | .ok pid =>
        let svc2 := { svc1 with pid := some pid, hasProcess := true }
        let fail : String → StartResult := fun m =>
          { svc := { svc2 with status := .failed, error := some m },
            raised := some m, spawnedEnv := some env2 }
        let run : StartResult :=
          { svc := { svc2 with status := .running }, raised := none, spawnedEnv := some env2 }
        if optStrTruthy cap.health_check_path then
          -- `_wait_for_ready` (service_manager.py:147-178); it returns at
          -- once when no truthy "api" port is assigned.
          if apiPortTruthy st.1 then
            match oracle.behavior with
            | .exits _ => fail "Process exited during startup"
            | .neverReady =>
              fail ("Service " ++ entry.svc.id ++ " did not become ready within 60s")
            | .respondsOk => run
          else run
        else
          match oracle.behavior with
          | .exits code => fail ("Process exited with code " ++ toString code)
          | _ => run

/-- Python `a or b` on optional port dicts (`port_assignments or old_ports`):
`None` and `{}` both fall through. -/
def pyOrOpt (a b : Option (List (String × Int))) : Option (List (String × Int)) :=
  match a with
  | some l => if l = [] then b else some l
  | none => b

/-- `old_ports = service.assigned_ports.copy() if service.assigned_ports
else None` (service_manager.py:244). -/
def capturedOldPorts (svc : Service) : Option (List (String × Int)) :=
  if svc.assigned_ports ≠ [] then some svc.assigned_ports else none

/-- `ServiceManager.restart_service` (service_manager.py:237-251). -/
def restartService (stopOut : StopOutcome) (oracle : StartOracle)
    (parentEnv : List (String × String)) (entry : SvcEntry)
    (overrides : Option (List (String × Int))) : StartResult :=
  if entry.svc.is_running then
    match stopService entry.svc stopOut with
    | (svc', some e) => { svc := svc', raised := some e }
    | (svc', none) =>
      startService oracle parentEnv { entry with svc := svc' }
        (pyOrOpt overrides (capturedOldPorts entry.svc))
  else
    startService oracle parentEnv entry (pyOrOpt overrides (capturedOldPorts entry.svc))


/-! ## README port rewriting (`README_PORT_PATTERNS`,
`PortConfigurator.update_readme_ports` / `_replace_port_in_readme`,
port_configurator.py:14-25 and 98-163)

The five regular expressions of `README_PORT_PATTERNS` are embedded as
executable matchers.  Every quantifier in those patterns applies to a
single character class, so each pattern is compiled to a deterministic
prefix parser; the two places where Python's engine genuinely
backtracks — the `\s*(?:#|$|\n)` tail of pattern 3 and the ordered
alternation `(?:api-?|ui-?|gradio-?)?` of pattern 4 — are implemented
with explicit longest-first backtracking.  `$` (no `re.MULTILINE`)
matches at the end of the string or just before a terminal newline,
i.e. exactly when the remaining suffix is `[]` or `['\n']`.

A matcher returns the full matched text together with its "port group":
the first regex group that is all digits with length ≥ 4 — in each of
the five patterns that is the `\d...` group (the other groups always
contain a non-digit).  `replace_if_match` (port_configurator.py:147-159)
replaces the first `\d{4,5}` run of the matched text only when the port
group literally equals `str(old_port)`. -/

/-- A prefix parser: `run s = some (consumed, rest)` with the invariant
`consumed ++ rest = s`. -/
structure Pre where
  run : List Char → Option (List Char × List Char)
  ok : ∀ {s a r}, run s = some (a, r) → a ++ r = s

def chPRun (p : Char → Bool) (s : List Char) : Option (List Char × List Char) :=
  match s with
  | [] => none
  | c :: cs => if p c then some ([c], cs) else none

theorem chPRun_ok {p : Char → Bool} : ∀ {s a r}, chPRun p s = some (a, r) → a ++ r = s := by
  intro s a r h
  unfold chPRun at h
  split at h
  · cases h
  · split at h
    · cases h; rfl
    · cases h

theorem chPRun_min1 {p : Char → Bool} : ∀ {s a r}, chPRun p s = some (a, r) → a ≠ [] := by
  intro s a r h
  unfold chPRun at h
  split at h
  · cases h
  · split at h
    · cases h; simp
    · cases h

/-- Consume one character satisfying `p`. -/
def Pre.chP (p : Char → Bool) : Pre := ⟨chPRun p, fun h => chPRun_ok h⟩

/-- Consume exactly the character `c`. -/
def Pre.lit (c : Char) : Pre := Pre.chP (· = c)

def strRun (t : List Char) : List Char → Option (List Char × List Char) :=
  fun s =>
    match t, s with
    | [], s => some ([], s)
    | _ :: _, [] => none
    | c :: t', d :: s' =>
      if c = d then (strRun t' s').map (fun pr => (c :: pr.1, pr.2)) else none

theorem strRun_ok (t : List Char) : ∀ {s a r}, strRun t s = some (a, r) → a ++ r = s := by
  induction t with
  | nil => intro s a r h; cases h; rfl
  | cons c t' ih =>
    intro s a r h
    cases s with
    | nil => cases h
    | cons d s' =>
      rw [strRun] at h
      split at h
      · rename_i hc
        cases hr : strRun t' s' with
        | none => rw [hr] at h; cases h
        | some pr =>
          obtain ⟨a1, r1⟩ := pr
          rw [hr] at h
          cases h
          have := ih hr
          subst hc
          simpa using this
      · cases h

theorem strRun_min1 {t : List Char} (ht : t ≠ []) :
    ∀ {s a r}, strRun t s = some (a, r) → a ≠ [] := by
  intro s a r h
  cases t with
  | nil => exact absurd rfl ht
  | cons c t' =>
    cases s with
    | nil => cases h
    | cons d s' =>
      rw [strRun] at h
      split at h
      · cases hr : strRun t' s' with
        | none => rw [hr] at h; cases h
        | some pr => rw [hr] at h; cases h; simp
      · cases h

/-- Consume exactly the literal string `t`. -/
def Pre.strP (t : List Char) : Pre := ⟨strRun t, fun h => strRun_ok t h⟩

def seqRun (p q : Pre) (s : List Char) : Option (List Char × List Char) :=
  match p.run s with
  | none => none
  | some (a, r) =>
    match q.run r with
    | none => none
    | some (b, r2) => some (a ++ b, r2)

theorem seqRun_ok {p q : Pre} : ∀ {s a r}, seqRun p q s = some (a, r) → a ++ r = s := by
  intro s a r h
  unfold seqRun at h
  split at h
  · cases h
  · rename_i a1 r1 hp
    split at h
    · cases h
    · rename_i b r2 hq
      cases h
      rw [List.append_assoc, q.ok hq, p.ok hp]

theorem seqRun_min1 {p q : Pre}
    (hp : ∀ {s a r}, p.run s = some (a, r) → a ≠ []) :
    ∀ {s a r}, seqRun p q s = some (a, r) → a ≠ [] := by
  intro s a r h
  unfold seqRun at h
  split at h
  · cases h
  · rename_i a1 r1 h1
    split at h
    · cases h
    · cases h
      have := hp h1
      cases a1 with
      | nil => exact absurd rfl this
      | cons x xs => simp

/-- Sequencing, no backtracking across the boundary (used only where the
adjacent character classes are disjoint, making the composite
deterministic like the Python pattern). -/
def Pre.seq (p q : Pre) : Pre := ⟨seqRun p q, fun h => seqRun_ok h⟩

def altRun (p q : Pre) (s : List Char) : Option (List Char × List Char) :=
  match p.run s with
  | some x => some x
  | none => q.run s

theorem altRun_ok {p q : Pre} : ∀ {s a r}, altRun p q s = some (a, r) → a ++ r = s := by
  intro s a r h
  unfold altRun at h
  split at h
  · rename_i x hp
    cases h
    exact p.ok hp
  · exact q.ok h

theorem altRun_min1 {p q : Pre}
    (hp : ∀ {s a r}, p.run s = some (a, r) → a ≠ [])
    (hq : ∀ {s a r}, q.run s = some (a, r) → a ≠ []) :
    ∀ {s a r}, altRun p q s = some (a, r) → a ≠ [] := by
  intro s a r h
  unfold altRun at h
  split at h
  · rename_i x h1
    cases h
    exact hp h1
  · exact hq h

/-- Ordered alternation (first alternative wins, like Python's `|`). -/
def Pre.alt (p q : Pre) : Pre := ⟨altRun p q, fun h => altRun_ok h⟩

def optRun (p : Pre) (s : List Char) : Option (List Char × List Char) :=
  match p.run s with
  | some x => some x
  | none => some ([], s)

theorem optRun_ok {p : Pre} : ∀ {s a r}, optRun p s = some (a, r) → a ++ r = s := by
  intro s a r h
  unfold optRun at h
  split at h
  · rename_i x hp
    cases h
    exact p.ok hp
  · cases h; rfl

/-- Greedy `X?` (sound here because wherever it is used, consuming the
optional character can never turn a Python match into a failure). -/
def Pre.opt (p : Pre) : Pre := ⟨optRun p, fun h => optRun_ok h⟩

/-- Greedy `[class]*`. -/
def Pre.many (f : Char → Bool) : Pre where
  run s := some (s.takeWhile f, s.dropWhile f)
  ok := by
    intro s a r h
    cases h
    exact List.takeWhile_append_dropWhile f s

/-- Greedy `[class]+`. -/
def Pre.many1 (f : Char → Bool) : Pre := Pre.seq (Pre.chP f) (Pre.many f)

/-- Match nothing. -/
def Pre.eps : Pre where
  run s := some ([], s)
  ok := by intro s a r h; cases h; rfl

def lookRun (f : List Char → Bool) (s : List Char) : Option (List Char × List Char) :=
  if f s then some ([], s) else none

theorem lookRun_ok {f : List Char → Bool} : ∀ {s a r}, lookRun f s = some (a, r) → a ++ r = s := by
  intro s a r h
  unfold lookRun at h
  split at h
  · cases h; rfl
  · cases h

/-- Zero-width lookahead on the remaining suffix. -/
def Pre.look (f : List Char → Bool) : Pre := ⟨lookRun f, fun h => lookRun_ok h⟩

/-- The ordered alternation `#|$|\n` of pattern 3. -/
def p3altRun (s : List Char) : Option (List Char × List Char) :=
  match s with
  | [] => some ([], [])
  | c :: rest =>
    if c = '#' then some ([c], rest)
    else if s = ['\n'] then some ([], s)
    else if c = '\n' then some ([c], rest)
    else none

theorem p3altRun_ok : ∀ {s a r}, p3altRun s = some (a, r) → a ++ r = s := by
  intro s a r h
  unfold p3altRun at h
  split at h
  · cases h; rfl
  · split at h
    · cases h; rfl
    · split at h
      · cases h; rfl
      · split at h
        · cases h; rfl
        · cases h

/-- `\s*(?:#|$|\n)` of pattern 3, greedy with longest-first backtracking. -/
def p3tailRun : List Char → Option (List Char × List Char)
  | [] => p3altRun []
  | c :: rest =>
    if isPySpace c then
      match p3tailRun rest with
      | some (a, r) => some (c :: a, r)
      | none => p3altRun (c :: rest)
    else p3altRun (c :: rest)

theorem p3tailRun_ok : ∀ {s a r}, p3tailRun s = some (a, r) → a ++ r = s := by
  intro s
  induction s with
  | nil => intro a r h; exact p3altRun_ok h
  | cons c rest ih =>
    intro a r h
    rw [p3tailRun] at h
    by_cases hc : isPySpace c
    · rw [if_pos hc] at h
      cases ht : p3tailRun rest with
      | none =>
        rw [ht] at h
        exact p3altRun_ok h
      | some pr =>
        obtain ⟨a1, r1⟩ := pr
        rw [ht] at h
        have h' : some (c :: a1, r1) = some (a, r) := h
        cases h'
        have := ih ht
        simpa using this
    · rw [if_neg hc] at h
      exact p3altRun_ok h

def p3tail : Pre := ⟨p3tailRun, fun h => p3tailRun_ok h⟩

/-- `\d{4,5}` of pattern 5: with the digit-free lookahead class that
follows, Python's greedy `{4,5}` matches exactly when the maximal digit
run here has length 4 or 5. -/
def p5midRun (s : List Char) : Option (List Char × List Char) :=
  if (s.takeWhile isAsciiDigit).length = 4 || (s.takeWhile isAsciiDigit).length = 5 then
    some (s.takeWhile isAsciiDigit, s.dropWhile isAsciiDigit)
  else none

theorem p5midRun_ok : ∀ {s a r}, p5midRun s = some (a, r) → a ++ r = s := by
  intro s a r h
  unfold p5midRun at h
  split at h
  · cases h
    exact List.takeWhile_append_dropWhile isAsciiDigit s
  · cases h

def p5mid : Pre := ⟨p5midRun, fun h => p5midRun_ok h⟩

/-- Lookahead class `(?=[\s,\)\]\/\n]|$)` of pattern 5 (`$` is subsumed:
the only extra position it adds, "before a terminal newline", already
has `'\n'` — a `\s` member — as next character). -/
def p5LookOk (r : List Char) : Bool :=
  match r with
  | [] => true
  | c :: _ => isPySpace c || c = ',' || c = ')' || c = ']' || c = '/'

/-- One match of a README pattern: matched text plus the port group (the
first all-digit group of length ≥ 4). -/
structure RMatch where
  matched : List Char
  port : Option (List Char)
  deriving DecidableEq

/-- A README pattern split as PRE ++ DIGITS ++ POST, where DIGITS is the
captured port group; `preMin1` records that the prefix part always
consumes at least one character. -/
structure Matcher where
  pre : Pre
  mid : Pre
  post : Pre
  preMin1 : ∀ {s a r}, pre.run s = some (a, r) → a ≠ []

def Matcher.run (m : Matcher) (s : List Char) : Option (RMatch × List Char) :=
  (m.pre.run s).bind (fun pr =>
    (m.mid.run pr.2).bind (fun md =>
      (m.post.run md.2).bind (fun ps =>
        some ({ matched := pr.1 ++ md.1 ++ ps.1,
                port := if 4 ≤ md.1.length then some md.1 else none }, ps.2))))

theorem Matcher.run_ok (m : Matcher) {s : List Char} {mt : RMatch} {r : List Char}
    (h : m.run s = some (mt, r)) : mt.matched ++ r = s ∧ mt.matched ≠ [] := by
  unfold Matcher.run at h
  cases hp : m.pre.run s with
  | none => rw [hp] at h; simp at h
  | some pr =>
    obtain ⟨a, r1⟩ := pr
    simp only [hp, Option.some_bind] at h
    cases hm : m.mid.run r1 with
    | none => simp only [hm, Option.none_bind] at h; cases h
    | some md =>
      obtain ⟨d, r2⟩ := md
      simp only [hm, Option.some_bind] at h
      cases hq : m.post.run r2 with
      | none => simp only [hq, Option.none_bind] at h; cases h
      | some ps =>
        obtain ⟨b, r3⟩ := ps
        simp only [hq, Option.some_bind] at h
        injection h with h1
        injection h1 with h2 h3
        subst h3
        subst h2
        refine ⟨?_, ?_⟩
        · show (a ++ d ++ b) ++ r3 = s
          rw [List.append_assoc, List.append_assoc, m.post.ok hq, m.mid.ok hm, m.pre.ok hp]
        · show a ++ d ++ b ≠ []
          have ha := m.preMin1 hp
          cases a with
          | nil => exact absurd rfl ha
          | cons x xs => simp

theorem lit_min1 {c : Char} : ∀ {s a r}, (Pre.lit c).run s = some (a, r) → a ≠ [] := by
  intro s a r h
  exact chPRun_min1 (show chPRun (· = c) s = some (a, r) from h)

theorem preSeq_min1 {p q : Pre} (hp : ∀ {s a r}, p.run s = some (a, r) → a ≠ []) :
    ∀ {s a r}, (p.seq q).run s = some (a, r) → a ≠ [] := by
  intro s a r h
  exact seqRun_min1 hp (show seqRun p q s = some (a, r) from h)

theorem preStr_min1 {t : List Char} (ht : t ≠ []) :
    ∀ {s a r}, (Pre.strP t).run s = some (a, r) → a ≠ [] := by
  intro s a r h
  exact strRun_min1 ht (show strRun t s = some (a, r) from h)

/-! The five matchers of `README_PORT_PATTERNS` (port_configurator.py:14-25). -/

def digits1 : Pre := Pre.many1 isAsciiDigit

/-- `(?:localhost|127\.0\.0\.1|0\.0\.0\.0)`. -/
def hostP : Pre :=
  Pre.alt (Pre.strP "localhost".toList)
    (Pre.alt (Pre.strP "127.0.0.1".toList) (Pre.strP "0.0.0.0".toList))

/-- Pattern 1, `(https?://host:)(\d+)`. -/
def matcher1 : Matcher where
  pre := Pre.seq (Pre.strP "http".toList)
    (Pre.seq (Pre.opt (Pre.lit 's'))
      (Pre.seq (Pre.strP "://".toList) (Pre.seq hostP (Pre.lit ':'))))
  mid := digits1
  post := Pre.eps
  preMin1 := fun h => preSeq_min1 (preStr_min1 (by decide)) h

/-- Pattern 2, `(\|\s*BQ?)(\d+)(BQ?\s*\|)` where BQ is a backtick. -/
def matcher2 : Matcher where
  pre := Pre.seq (Pre.lit '|') (Pre.seq (Pre.many isPySpace) (Pre.opt (Pre.lit '\x60')))
  mid := digits1
  post := Pre.seq (Pre.opt (Pre.lit '\x60')) (Pre.seq (Pre.many isPySpace) (Pre.lit '|'))
  preMin1 := fun h => preSeq_min1 lit_min1 h

/-- Pattern 3, `(=\s*)(\d+)(\s*(?:#|$|\n))`. -/
def matcher3 : Matcher where
  pre := Pre.seq (Pre.lit '=') (Pre.many isPySpace)
  mid := digits1
  post := p3tail
  preMin1 := fun h => preSeq_min1 lit_min1 h

/-- `port\s+` (tail of pattern 4's first group). -/
def p4portSp : Pre := Pre.seq (Pre.strP "port".toList) (Pre.many1 isPySpace)

/-- `(?:api-?|ui-?|gradio-?)?port\s+` with Python's ordered backtracking. -/
def p4group : Pre :=
  Pre.alt (Pre.seq (Pre.strP "api".toList) (Pre.seq (Pre.opt (Pre.lit '-')) p4portSp))
    (Pre.alt (Pre.seq (Pre.strP "ui".toList) (Pre.seq (Pre.opt (Pre.lit '-')) p4portSp))
      (Pre.alt (Pre.seq (Pre.strP "gradio".toList) (Pre.seq (Pre.opt (Pre.lit '-')) p4portSp))
        p4portSp))

/-- Pattern 4, `(--?(?:api-?|ui-?|gradio-?)?port\s+)(\d+)`. -/
def matcher4 : Matcher where
  pre := Pre.seq (Pre.lit '-') (Pre.alt (Pre.seq (Pre.lit '-') p4group) p4group)
  mid := digits1
  post := Pre.eps
  preMin1 := fun h => preSeq_min1 lit_min1 h

/-- Pattern 5, `(:)(\d{4,5})(?=[\s,\)\]\/\n]|$)`. -/
def matcher5 : Matcher where
  pre := Pre.lit ':'
  mid := p5mid
  post := Pre.look p5LookOk
  preMin1 := fun h => lit_min1 h

def readmeMatchers : List Matcher := [matcher1, matcher2, matcher3, matcher4, matcher5]

/-! ### `re.sub` scanning and the replacement callback -/

/-- `re.sub(pattern, f, s)` scanning: leftmost non-overlapping matches,
each replaced by `f`; fuelled (every step consumes at least one
character, so `fuel = s.length` is always enough). -/
def subScanF (m : Matcher) (f : RMatch → List Char) : Nat → List Char → List Char
  | 0, s => s
  | fuel + 1, s =>
    match m.run s with
    | some (mt, r) => f mt ++ subScanF m f fuel r
    | none =>
      match s with
      | [] => []
      | c :: cs => c :: subScanF m f fuel cs

/-- The list of matches the scan visits (same traversal as `subScanF`). -/
def scanMF (m : Matcher) : Nat → List Char → List RMatch
  | 0, _ => []
  | fuel + 1, s =>
    match m.run s with
    | some (mt, r) => mt :: scanMF m fuel r
    | none =>
      match s with
      | [] => []
      | _ :: cs => scanMF m fuel cs

/-- `re.sub(r"\d{4,5}", new, s, count=1)`: replace the leftmost run of 4
or 5 digits (greedily 5). -/
def replaceFirstNum (newS : List Char) : Nat → List Char → List Char
  | 0, s => s
  | _, [] => []
  | fuel + 1, c :: cs =>
    if isAsciiDigit c then
      let d := (c :: cs).takeWhile isAsciiDigit
      let rest := (c :: cs).dropWhile isAsciiDigit
      if 5 ≤ d.length then newS ++ d.drop 5 ++ rest
      else if 4 ≤ d.length then newS ++ rest
      else d ++ replaceFirstNum newS fuel rest
    else c :: replaceFirstNum newS fuel cs

/-- `replace_if_match` (port_configurator.py:147-159): replace the first
`\d{4,5}` run of the matched text iff the port group equals
`str(old_port)`. -/
def portReplacer (oldS newS : List Char) (mt : RMatch) : List Char :=
  if mt.port = some oldS then replaceFirstNum newS mt.matched.length mt.matched
  else mt.matched

/-- One `re.sub(pattern, replace_if_match, content)` pass plus the number
of replacements it performed. -/
def applyPattern (oldS newS : List Char) (s : List Char) (m : Matcher) :
    List Char × Nat :=
  (subScanF m (portReplacer oldS newS) s.length s,
   (scanMF m s.length s).countP (fun mt => decide (mt.port = some oldS)))

/-- `PortConfigurator._replace_port_in_readme`
(port_configurator.py:137-163): all five patterns in order, counting
total replacements. -/
def replacePortInReadme (content : List Char) (oldP newP : Int) : List Char × Nat :=
  let oldS := (toString oldP).toList
  let newS := (toString newP).toList
  readmeMatchers.foldl (fun acc m =>
    let r := applyPattern oldS newS acc.1 m
    (r.1, acc.2 + r.2)) (content, 0)

/-- One port change of `resolve_all_conflicts` /
`update_readme_ports`. -/
structure ResolveChange where
  port_key : String
  env_var : String
  old_port : Int
  new_port : Int
  deriving DecidableEq

/-- Result fields of `update_readme_ports` (`readme_path` is modelled by
its presence). -/
structure ReadmeResult where
  updated : Bool
  changes_made : Nat
  hasPath : Bool
  deriving DecidableEq

/-- The body of the `for change in port_changes` loop
(port_configurator.py:110-124): skip when `old == new`, otherwise run the
pattern passes and keep the new content only when something was
replaced. -/
def readmeChangeStep (st : List Char × Nat) (ch : ResolveChange) : List Char × Nat :=
  if ch.old_port = ch.new_port then st
  else
    let r := replacePortInReadme st.1 ch.old_port ch.new_port
    if 0 < r.2 then (r.1, st.2 + r.2) else st

def updateReadmePorts (readme : Option String) (changes : List ResolveChange) :
    ReadmeResult × Option String :=
  match readme with
  | none => ({ updated := false, changes_made := 0, hasPath := false }, none)
  | some content0 =>
    let final := changes.foldl readmeChangeStep (content0.toList, 0)
    if final.1 ≠ content0.toList then
      ({ updated := true, changes_made := final.2, hasPath := true },
        some (String.mk final.1))
    else
      ({ updated := false, changes_made := 0, hasPath := true }, some content0)

/-! ## Environment-file writing (`PortConfigurator.write_env_file`,
port_configurator.py:58-96) -/

/-- The line-rewriting passes of `write_env_file`: comment / `=`-free
lines are kept verbatim, lines whose key is in `updates` are replaced by
`key=value`, and genuinely new keys are appended under the marker
comment.  The Python code appends the single string
`"\n# Port configured by ServiceAgent"`, which after the final
`"\n".join` amounts to an empty line plus the comment line; the model
holds the file as its list of lines, so it appends the two lines. -/
def writeEnvLines (lines : List String) (updates : List (String × Int)) : List String :=
  let pass1 := lines.foldl (fun (acc : List String × List String) line =>
    let stripped := pyStrip line.toList
    if stripped.head? = some '#' ∨ ¬ strContains stripped '=' then
      (acc.1 ++ [line], acc.2)
    else
      let key := String.mk (pyStrip (takeUntilChar '=' stripped))
      match lookupA key updates with
      | some v => (acc.1 ++ [key ++ "=" ++ toString v], acc.2 ++ [key])
      | none => (acc.1 ++ [line], acc.2)) ([], [])
  updates.foldl (fun ls kv =>
    if kv.1 ∈ pass1.2 then ls
    else ls ++ ["", "# Port configured by ServiceAgent", kv.1 ++ "=" ++ toString kv.2])
    pass1.1

/-- `PortConfigurator.write_env_file` (port_configurator.py:58-96): start
from `.env`, else `.env.example`, else empty, and write the result to
`.env`. -/
def writeEnvFile (folder : Folder) (updates : List (String × Int)) : Folder :=
  let lines :=
    match folder.envLines with
    | some ls => ls
    | none =>
      match folder.envExampleLines with
      | some ls => ls
      | none => []
  { folder with envLines := some (writeEnvLines lines updates) }

/-! ## Next-free-port search (`PortConfigurator.get_next_available_port`,
port_configurator.py:165-181) -/

/-- The machine's port ranges (`self.port_ranges` dict; the defaults are
the `dict.get` fallbacks of the source). -/
structure PortRanges where
  api_port_min : Int := 8100
  api_port_max : Int := 8299
  ui_port_min : Int := 7800
  ui_port_max : Int := 7999
  deriving DecidableEq

/-- Python `range(lo, hi + 1)` over integers. -/
def intRange (lo hi : Int) : List Int :=
  (List.range (hi + 1 - lo).toNat).map (fun i => lo + (i : Int))

/-- `PortConfigurator.get_next_available_port`: scan upward from the
kind's minimum, skipping claimed ports and ports the OS reports bound
(`inUse`); exhausting the range raises `RuntimeError`. -/
def getNextAvailablePort (pr : PortRanges) (inUse : Int → Bool) (portType : String)
    (usedPorts : List Int) : Except String Int :=
  let bounds : Int × Int :=
    if portType = "api" then (pr.api_port_min, pr.api_port_max)
    else if portType = "ui" then (pr.ui_port_min, pr.ui_port_max)
    else (8000, 9000)
  match (intRange bounds.1 bounds.2).find?
      (fun p => !(usedPorts.contains p) && !(inUse p)) with
  | some p => .ok p
  | none => .error ("No available " ++ portType ++ " ports in range")

/-! ## `resolve_all_conflicts` (port_configurator.py:183-247) -/

/-- One per-service result of `resolve_all_conflicts` (`path` and
`env_file` are derived from the folder and carry no information in the
model). -/
structure ResolveServiceResult where
  service_id : String
  changes : List ResolveChange
  updated : Bool
  readme_updated : Bool
  readme_changes : Nat
  deriving DecidableEq

/-- The inner `for port_key, port_config in service.capability.ports`
loop (port_configurator.py:201-228): ports without a truthy `env_var`
are skipped entirely; the first claimant of a default keeps it; later
claimants are reassigned through the next-free-port search. -/
def resolveConflictLoop (pr : PortRanges) (inUse : Int → Bool) :
    List (String × PortConfig) → List Int → List ResolveChange → List (String × Int) →
    Except String (List Int × List ResolveChange × List (String × Int))
  | [], used, chs, envs => .ok (used, chs, envs)
  | (key, pc) :: rest, used, chs, envs =>
    if optStrTruthy pc.env_var then
      if pc.default ∈ used then
        match getNextAvailablePort pr inUse key used with
        | .error e => .error e
        | .ok np =>
          resolveConflictLoop pr inUse rest (np :: used)
            (chs ++ [{ port_key := key, env_var := pc.env_var.getD "",
                       old_port := pc.default, new_port := np }])
            (insertA (pc.env_var.getD "") np envs)
      else resolveConflictLoop pr inUse rest (pc.default :: used) chs envs
    else resolveConflictLoop pr inUse rest used chs envs

/-- Exception-propagating sequencing (Python: an uncaught exception in a
step aborts everything after it). -/
def exStep {α β : Type} (x : Except String α) (f : α → Except String β) :
    Except String β :=
  match x with
  | .error e => .error e
  | .ok a => f a

/-- The tail of the per-service body of `resolve_all_conflicts`
(port_configurator.py:230-245): when something was reassigned, write the
`.env` file and update the README; build the service's result dict. -/
def resolveServiceFinish (entry : SvcEntry) (used' : List Int)
    (chs : List ResolveChange) (envs : List (String × Int)) :
    (ResolveServiceResult × SvcEntry) × List Int :=
  if envs ≠ [] then
    let folder1 := writeEnvFile entry.folder envs
    let readmeRes := updateReadmePorts folder1.readme chs
    (({ service_id := entry.svc.id, changes := chs, updated := true,
        readme_updated := readmeRes.1.updated,
        readme_changes := readmeRes.1.changes_made },
      { entry with folder := { folder1 with readme := readmeRes.2 } }), used')
  else
    (({ service_id := entry.svc.id, changes := chs, updated := false,
        readme_updated := false, readme_changes := 0 }, entry), used')

/-- The per-service body of `resolve_all_conflicts`
(port_configurator.py:192-245): run the port loop, then finish.  Returns
the service's result dict, the updated folder entry and the new
claimed-port set. -/
def resolveServiceStep (pr : PortRanges) (inUse : Int → Bool) (entry : SvcEntry)
    (cap : ServiceCapability) (used : List Int) :
    Except String ((ResolveServiceResult × SvcEntry) × List Int) :=
  exStep (resolveConflictLoop pr inUse cap.ports used [] []) (fun t =>
    .ok (resolveServiceFinish entry t.1 t.2.1 t.2.2))

/-- The service loop of `resolve_all_conflicts`
(port_configurator.py:183-247), threading the claimed-port set and the
filesystem; a `RuntimeError` from the port search propagates and aborts
the whole batch. -/
def resolveAllGo (pr : PortRanges) (inUse : Int → Bool) :
    List SvcEntry → List Int →
    Except String (List ResolveServiceResult × List SvcEntry)
  | [], _ => .ok ([], [])
  | entry :: rest, used =>
    match entry.svc.capability with
    | none =>
      exStep (resolveAllGo pr inUse rest used) (fun pr2 => .ok (pr2.1, entry :: pr2.2))
    | some cap =>
      exStep (resolveServiceStep pr inUse entry cap used) (fun su =>
        exStep (resolveAllGo pr inUse rest su.2) (fun pr2 =>
          .ok (su.1.1 :: pr2.1, su.1.2 :: pr2.2)))

/-- `PortConfigurator.resolve_all_conflicts` (port_configurator.py:183-247). -/
def resolveAllConflicts (pr : PortRanges) (inUse : Int → Bool)
    (entries : List SvcEntry) :
    Except String (List ResolveServiceResult × List SvcEntry) :=
  resolveAllGo pr inUse entries []

/-- The (service_id, changes, updated) projection of per-service
results — the fields the idempotence claim speaks about. -/
def resProj (l : List ResolveServiceResult) : List (String × List ResolveChange × Bool) :=
  l.map (fun r => (r.service_id, r.changes, r.updated))

/-- The same projection lifted over the `Except`. -/
def resProjE (x : Except String (List ResolveServiceResult × List SvcEntry)) :
    Except String (List (String × List ResolveChange × Bool)) :=
  match x with
  | .error e => .error e
  | .ok (res, _) => .ok (resProj res)

/-! ## README sync (`PortConfigurator.sync_readme_with_env` /
`sync_all_readmes`, port_configurator.py:279-327) -/

/-- The shapes of the result dict of `sync_readme_with_env`. -/
inductive SyncOutcome
  | err (msg : String)
  | noOverrides
  | synced (ok : Bool) (changes : Nat)
  deriving DecidableEq

/-- `PortConfigurator.sync_readme_with_env` (port_configurator.py:279-316). -/
def syncReadmeWithEnv (entry : SvcEntry) : SyncOutcome × SvcEntry :=
  match entry.svc.capability with
  | none => (.err "Service not found or no capability", entry)
  | some cap =>
    let envVars := readEnvFile entry.folder
    let port_changes := cap.ports.foldl (fun acc kp =>
      match kp.2.env_var with
      | some ev =>
        if ev ≠ "" then
          match lookupA ev envVars with
          | some v =>
            match pyParseInt v with
            | some n =>
              if n ≠ kp.2.default then
                acc ++ [{ port_key := kp.1, env_var := ev,
                          old_port := kp.2.default, new_port := n }]
              else acc
            | none => acc
          | none => acc
        else acc
      | none => acc) []
    if port_changes = [] then (.noOverrides, entry)
    else
      let res := updateReadmePorts entry.folder.readme port_changes
      (.synced res.1.updated res.1.changes_made,
       { entry with folder := { entry.folder with readme := res.2 } })

/-- `PortConfigurator.sync_all_readmes` (port_configurator.py:318-327):
one outcome per service that has a capability. -/
def syncAllReadmes : List SvcEntry → List (String × SyncOutcome) × List SvcEntry
  | [] => ([], [])
  | entry :: rest =>
    match entry.svc.capability with
    | none =>
      let r := syncAllReadmes rest
      (r.1, entry :: r.2)
    | some _ =>
      let s := syncReadmeWithEnv entry
      let r := syncAllReadmes rest
      ((entry.svc.id, s.1) :: r.1, s.2 :: r.2)

/-! ## Concrete scenarios for the batch-resolution claims -/

/-- Two services sharing the manifest default port 8000 through
`API_PORT`. -/
def c1CapAB : ServiceCapability :=
  { ports := [("api", { default := 8000, env_var := some "API_PORT" })] }

def c1Entries : List SvcEntry :=
  [ { svc := { id := "svc_a", capability := some c1CapAB }, folder := {} },
    { svc := { id := "svc_b", capability := some c1CapAB }, folder := {} } ]

/-- The per-service results of the first `resolve_all_conflicts` run on
`c1Entries`: the second claimant of 8000 is moved to 8100. -/
def c1Res1 : List ResolveServiceResult :=
  [ { service_id := "svc_a", changes := [], updated := false,
      readme_updated := false, readme_changes := 0 },
    { service_id := "svc_b",
      changes := [{ port_key := "api", env_var := "API_PORT",
                    old_port := 8000, new_port := 8100 }],
      updated := true, readme_updated := false, readme_changes := 0 } ]

/-- The registry state the first run leaves behind: only `svc_b` has a
rewritten `.env` file. -/
def c1EnvOut : List String :=
  ["", "# Port configured by ServiceAgent", "API_PORT=8100"]

def c1St1 : List SvcEntry :=
  [ { svc := { id := "svc_a", capability := some c1CapAB }, folder := {} },
    { svc := { id := "svc_b", capability := some c1CapAB },
      folder := { envLines := some c1EnvOut } } ]

/-- The (service_id, changes, updated) report of the run after the run:
`resolve_all_conflicts` applied to the state the first run left behind. -/
def c1SecondRun : Option (List (String × List ResolveChange × Bool)) :=
  match resolveAllConflicts {} (fun _ => false) c1Entries with
  | .error _ => none
  | .ok (_, st1) =>
    match resolveAllConflicts {} (fun _ => false) st1 with
    | .error _ => none
    | .ok (res2, _) => some (resProj res2)

/-- A one-port api range, so that the second claimant of 8100 exhausts
it. -/
def c2Pr : PortRanges := { api_port_min := 8100, api_port_max := 8100 }

def c2Cap : ServiceCapability :=
  { ports := [("api", { default := 8100, env_var := some "API_PORT" })] }

/-- Three services contending for the single api port: the first keeps
its default, the second exhausts the range, the third is never
processed. -/
def c2Entries : List SvcEntry :=
  [ { svc := { id := "svc_one", capability := some c2Cap }, folder := {} },
    { svc := { id := "svc_two", capability := some c2Cap }, folder := {} },
    { svc := { id := "svc_three", capability := some c2Cap }, folder := {} } ]

/-- A running service with a live process handle, for the stop-all
scenario. -/
def c2SvcRun : Service :=
  { id := "svc_r", status := .running, hasProcess := true }

/-- A port declared without `env_var` (svc_noenv) followed by a service
declaring the same default through `API_PORT` (svc_env). -/
def c9CapNoEnv : ServiceCapability :=
  { ports := [("api", { default := 8000 })] }

def c9CapEnv : ServiceCapability :=
  { ports := [("api", { default := 8000, env_var := some "API_PORT" })] }

def c9Entries : List SvcEntry :=
  [ { svc := { id := "svc_noenv", capability := some c9CapNoEnv }, folder := {} },
    { svc := { id := "svc_env", capability := some c9CapEnv }, folder := {} } ]

/-! # Theorems

All definitions of the embedding are above; from here on the file is
lemmas and claim theorems only. -/

theorem lookupA_insertA_self {κ α : Type} [DecidableEq κ] (k : κ) (v : α) :
    ∀ l : List (κ × α), lookupA k (insertA k v l) = some v := by
  intro l
  induction l with
  | nil => simp [insertA, lookupA]
  | cons hd tl ih =>
    obtain ⟨k', v'⟩ := hd
    by_cases h : k' = k <;> simp [insertA, lookupA, h, ih]

theorem lookupA_insertA_ne {κ α : Type} [DecidableEq κ] (k j : κ) (v : α) (hne : j ≠ k) :
    ∀ l : List (κ × α), lookupA j (insertA k v l) = lookupA j l := by
  intro l
  induction l with
  | nil => simp [insertA, lookupA, Ne.symm hne]
  | cons hd tl ih =>
    obtain ⟨k', v'⟩ := hd
    by_cases h : k' = k
    · subst h
      simp only [insertA, if_pos rfl, lookupA]
      have : ¬ k' = j := fun h => hne h.symm
      simp [this]
    · simp [insertA, h, lookupA, ih]

theorem lookupA_foldl_insertA_of_not_mem {κ α β : Type} [DecidableEq κ] (g : κ × β → α) :
    ∀ (l : List (κ × β)) (acc : List (κ × α)) (k : κ),
      k ∉ l.map Prod.fst →
      lookupA k (l.foldl (fun acc kp => insertA kp.1 (g kp) acc) acc) = lookupA k acc := by
  intro l
  induction l with
  | nil => intro acc k _; rfl
  | cons hd tl ih =>
    intro acc k hk
    rw [List.map_cons, List.mem_cons] at hk
    push_neg at hk
    rw [List.foldl_cons, ih _ k hk.2]
    exact lookupA_insertA_ne _ _ _ hk.1 acc

theorem lookupA_foldl_insertA_mem {κ α β : Type} [DecidableEq κ] (g : κ × β → α) :
    ∀ (l : List (κ × β)) (acc : List (κ × α)) (k : κ) (b : β),
      (k, b) ∈ l → (l.map Prod.fst).Nodup →
      lookupA k (l.foldl (fun acc kp => insertA kp.1 (g kp) acc) acc) = some (g (k, b)) := by
  intro l
  induction l with
  | nil => intro acc k b hmem; simp at hmem
  | cons hd tl ih =>
    intro acc k b hmem hnd
    rw [List.map_cons, List.nodup_cons] at hnd
    rw [List.mem_cons] at hmem
    rcases hmem with heq | hmem
    · subst heq
      rw [List.foldl_cons,
        lookupA_foldl_insertA_of_not_mem g tl _ k hnd.1,
        lookupA_insertA_self]
    · rw [List.foldl_cons]
      exact ih _ k b hmem hnd.2

theorem mem_collapseUnderscores : ∀ (s : List Char) (c : Char),
    c ∈ collapseUnderscores s → c ∈ s
  | [], c, h => by simp [collapseUnderscores] at h
  | [a], c, h => by simp [collapseUnderscores] at h; simp [h]
  | a :: b :: rest, c, h => by
    by_cases hab : (a = '_' && b = '_') = true
    · simp only [collapseUnderscores, hab, if_true] at h
      exact List.mem_cons_of_mem _ (mem_collapseUnderscores (b :: rest) c h)
    · simp only [collapseUnderscores, hab, if_false, Bool.false_eq_true, List.mem_cons] at h
      rcases h with h1 | h1
      · exact List.mem_cons.mpr (Or.inl h1)
      · exact List.mem_cons_of_mem _ (mem_collapseUnderscores (b :: rest) c h1)

theorem head?_collapseUnderscores : ∀ (a : Char) (s : List Char),
    (collapseUnderscores (a :: s)).head? = some a
  | _, [] => rfl
  | a, b :: rest => by
    by_cases hab : (a = '_' && b = '_') = true
    · have hb := head?_collapseUnderscores b rest
      have hab' : a = '_' ∧ b = '_' := by simpa using hab
      simp only [collapseUnderscores, hab, if_true]
      rw [hb, hab'.1, hab'.2]
    · simp [collapseUnderscores, hab]

theorem chain'_collapseUnderscores : ∀ s : List Char,
    List.Chain' noDoubleUS (collapseUnderscores s)
  | [] => by simp [collapseUnderscores]
  | [a] => by simp [collapseUnderscores]
  | a :: b :: rest => by
    by_cases hab : (a = '_' && b = '_') = true
    · simpa [collapseUnderscores, hab] using chain'_collapseUnderscores (b :: rest)
    · simp only [collapseUnderscores, hab, if_false, Bool.false_eq_true]
      rw [List.chain'_cons']
      refine ⟨?_, chain'_collapseUnderscores (b :: rest)⟩
      intro y hy
      rw [head?_collapseUnderscores b rest, Option.mem_def, Option.some.injEq] at hy
      subst hy
      intro ⟨h1, h2⟩
      exact hab (by simp [h1, h2])

theorem mem_stripWith {p : Char → Bool} {s : List Char} {c : Char}
    (h : c ∈ stripWith p s) : c ∈ s := by
  unfold stripWith at h
  rw [List.mem_reverse] at h
  have h2 := ((List.dropWhile_suffix p).sublist).mem h
  rw [List.mem_reverse] at h2
  exact ((List.dropWhile_suffix p).sublist).mem h2

theorem chain'_stripWith {R : Char → Char → Prop}
    {p : Char → Bool} {s : List Char} (h : List.Chain' R s) :
    List.Chain' R (stripWith p s) := by
  unfold stripWith
  rw [List.chain'_reverse]
  have h1 : List.Chain' R (s.dropWhile p) := h.suffix (List.dropWhile_suffix p)
  have h2 : List.Chain' (flip R) (s.dropWhile p).reverse :=
    List.chain'_reverse.mpr (h1.imp (fun _ _ hab => hab))
  exact h2.suffix (List.dropWhile_suffix p)

theorem head?_dropWhile_false {p : Char → Bool} {s : List Char} {c : Char}
    (h : (s.dropWhile p).head? = some c) : p c = false := by
  have := List.head?_dropWhile_not p s
  rw [h] at this
  exact this

theorem getLast?_dropWhile_ne_nil (p : Char → Bool) : ∀ (x : List Char),
    x.dropWhile p ≠ [] → (x.dropWhile p).getLast? = x.getLast?
  | [], h => absurd rfl h
  | a :: l, h => by
    rw [List.dropWhile_cons] at h ⊢
    by_cases hp : p a = true
    · rw [if_pos hp] at h ⊢
      rw [getLast?_dropWhile_ne_nil p l h]
      cases l with
      | nil => simp [List.dropWhile_nil] at h
      | cons b m => rw [List.getLast?_cons_cons]
    · rw [if_neg hp]

theorem head?_stripWith_false {p : Char → Bool} {s : List Char} {c : Char}
    (h : (stripWith p s).head? = some c) : p c = false := by
  unfold stripWith at h
  rw [List.head?_reverse] at h
  have hne : ((s.dropWhile p).reverse.dropWhile p) ≠ [] := by
    intro hnil; rw [hnil] at h; simp at h
  rw [getLast?_dropWhile_ne_nil p _ hne, List.getLast?_reverse] at h
  exact head?_dropWhile_false h

theorem getLast?_stripWith_false {p : Char → Bool} {s : List Char} {c : Char}
    (h : (stripWith p s).getLast? = some c) : p c = false := by
  unfold stripWith at h
  rw [List.getLast?_reverse] at h
  exact head?_dropWhile_false h

/-- **C4**: the id sanitizer lowercases, maps every character outside
`[a-z0-9_-]` to `'_'`, collapses repeated separators (no `"__"` survives
in the output) and trims leading/trailing `'_'`/`'-'`; in particular
`sanitize "My Service" = "my_service"`, `sanitize "___leading" = "leading"`,
hyphens are preserved and repeated separators collapse. -/
theorem c4_sanitizer_spec :
    (∀ name : String, ∀ c ∈ (sanitizeId name).toList, isIdChar c = true) ∧
    (∀ name : String, List.Chain' noDoubleUS (sanitizeId name).toList) ∧
    (∀ name : String, ∀ c : Char,
        (sanitizeId name).toList.head? = some c → c ≠ '_' ∧ c ≠ '-') ∧
    (∀ name : String, ∀ c : Char,
        (sanitizeId name).toList.getLast? = some c → c ≠ '_' ∧ c ≠ '-') ∧
    sanitizeId "My Service" = "my_service" ∧
    sanitizeId "___leading" = "leading" ∧
    sanitizeId "my-app" = "my-app" ∧
    sanitizeId "A  B" = "a_b" := by
  refine ⟨?_, ?_, ?_, ?_, by decide, by decide, by decide, by decide⟩
  · intro name c hc
    have hc2 := mem_collapseUnderscores _ _ (mem_stripWith hc)
    rw [List.mem_map] at hc2
    obtain ⟨d, _, hd⟩ := hc2
    by_cases hid : isIdChar d = true
    · rw [← hd, if_pos hid]; exact hid
    · rw [← hd, if_neg hid]; decide
  · intro name
    exact chain'_stripWith (chain'_collapseUnderscores _)
  · intro name c hc
    have := head?_stripWith_false hc
    constructor <;> (intro h; rw [h] at this; simp at this)
  · intro name c hc
    have := getLast?_stripWith_false hc
    constructor <;> (intro h; rw [h] at this; simp at this)

/-- Witness for `c4_sanitizer_spec` at the concrete input `"My Service"`. -/
theorem c4_sanitizer_spec_witness :
    ('m' ∈ (sanitizeId "My Service").toList) ∧ isIdChar 'm' = true ∧
    ((sanitizeId "My Service").toList.head? = some 'm') ∧ ('m' ≠ '_' ∧ 'm' ≠ '-') :=
  ⟨by decide, c4_sanitizer_spec.1 "My Service" 'm' (by decide), by decide,
   c4_sanitizer_spec.2.2.1 "My Service" 'm' (by decide)⟩

theorem envConfiguredPort_invalid {envVars : List (String × String)} {pc : PortConfig}
    {ev v : String} (hev : pc.env_var = some ev) (hne : ev ≠ "")
    (hv : lookupA ev envVars = some v) (hp : pyParseInt v = none) :
    envConfiguredPort envVars pc = pc.default := by
  simp [envConfiguredPort, hev, hne, hv, hp]

/-- **C10**: when the environment file binds a declared port's `env_var`
to a value that is not a valid integer, every port-reading operation
(start-time port resolution via `_get_configured_ports`,
`get_current_port_config`, configured-conflict detection) silently
treats the configured port as the manifest default instead of raising. -/
theorem c10_invalid_env_value_defaults
    (entry : SvcEntry) (cap : ServiceCapability) (k : String) (pc : PortConfig)
    (ev v : String)
    (hcap : entry.svc.capability = some cap)
    (hmem : (k, pc) ∈ cap.ports)
    (hnd : (cap.ports.map Prod.fst).Nodup)
    (hev : pc.env_var = some ev) (hevne : ev ≠ "")
    (hparse : pyParseInt v = none) :
    (lookupA ev (managerEnvVars entry.folder) = some v →
      lookupA k (getConfiguredPorts entry) = some pc.default) ∧
    (lookupA ev (readEnvFile entry.folder) = some v →
      ∃ cfg, getCurrentPortConfig entry = some cfg ∧
        lookupA k cfg = some { env_var := pc.env_var, defaultPort := pc.default,
                               configured := pc.default, is_default := true }) ∧
    (∀ envVars : List (String × String), lookupA ev envVars = some v →
      envConfiguredPort envVars pc = pc.default) ∧
    (cap.ports = [(k, pc)] → lookupA ev (readEnvFile entry.folder) = some v →
      conflictsAccum [entry] = [(pc.default, [entry.svc.id ++ ":" ++ k])]) := by
  refine ⟨?_, ?_, ?_, ?_⟩
  · intro hv
    unfold getConfiguredPorts
    rw [hcap]
    rw [lookupA_foldl_insertA_mem (fun kp => envConfiguredPort (managerEnvVars entry.folder) kp.2)
      cap.ports [] k pc hmem hnd]
    rw [envConfiguredPort_invalid hev hevne hv hparse]
  · intro hv
    unfold getCurrentPortConfig
    rw [hcap]
    refine ⟨_, rfl, ?_⟩
    rw [lookupA_foldl_insertA_mem
      (fun kp => ({ env_var := kp.2.env_var, defaultPort := kp.2.default,
                    configured := envConfiguredPort (readEnvFile entry.folder) kp.2,
                    is_default := envConfiguredPort (readEnvFile entry.folder) kp.2 == kp.2.default } : PortKeyConfig))
      cap.ports [] k pc hmem hnd]
    rw [envConfiguredPort_invalid hev hevne hv hparse]
    simp [hev]
  · intro envVars hv
    exact envConfiguredPort_invalid hev hevne hv hparse
  · intro hports hv
    simp only [conflictsAccum, List.foldl_cons, List.foldl_nil, hcap, hports]
    simp [lookupA, envConfiguredPort_invalid hev hevne hv hparse]

/-- Witness for `c10_invalid_env_value_defaults`: a service whose `.env`
binds `API_PORT` to the non-integer `oops`. -/
theorem c10_invalid_env_value_defaults_witness :
    let pc : PortConfig := { default := 8000, env_var := some "API_PORT" }
    let cap : ServiceCapability := { ports := [("api", pc)] }
    let entry : SvcEntry :=
      { svc := { id := "svc_a", status := .ready, capability := some cap }
        folder := { envLines := some ["API_PORT=oops"] } }
    lookupA "api" (getConfiguredPorts entry) = some 8000 ∧
    conflictsAccum [entry] = [(8000, ["svc_a:api"])] := by
  intro pc cap entry
  have h := c10_invalid_env_value_defaults entry cap "api" pc "API_PORT" "oops"
    rfl (by decide) (by decide) rfl (by decide) (by decide)
  exact ⟨h.1 (by decide), h.2.2.2 rfl (by decide)⟩


/-- **C8**: `stop_service` on a known service with no process handle is a
no-op success with final status `stopped`; on successful termination it
ends `stopped` with pid, process handle and assigned ports all cleared;
an exception during signalling sets `failed`, records the error and
re-raises. -/
theorem c8_stop_service_branches (svc : Service) (outcome : StopOutcome) :
    (svc.hasProcess = false →
      stopService svc outcome = ({ svc with status := .stopped }, none)) ∧
    (svc.hasProcess = true → (∀ m, outcome ≠ StopOutcome.sigError m) →
      (stopService svc outcome).1.status = .stopped ∧
      (stopService svc outcome).1.pid = none ∧
      (stopService svc outcome).1.hasProcess = false ∧
      (stopService svc outcome).1.assigned_ports = [] ∧
      (stopService svc outcome).2 = none) ∧
    (∀ m, svc.hasProcess = true → outcome = StopOutcome.sigError m →
      (stopService svc outcome).1.status = .failed ∧
      (stopService svc outcome).1.error = some m ∧
      (stopService svc outcome).2 = some m) := by
  refine ⟨?_, ?_, ?_⟩
  · intro h; simp [stopService, h]
  · intro h hn
    cases outcome with
    | graceful => simp [stopService, h]
    | forceKill => simp [stopService, h]
    | sigError m => exact absurd rfl (hn m)
  · intro m h he
    subst he
    simp [stopService, h]

/-- Witness for `c8_stop_service_branches` at a concrete running service. -/
theorem c8_stop_service_branches_witness :
    let svc : Service := { id := "svc_a", status := .running, hasProcess := true,
                           pid := some 42, assigned_ports := [("api", 8000)] }
    ((stopService svc .graceful).1.status = .stopped ∧
      (stopService svc .graceful).1.assigned_ports = []) ∧
    stopService { svc with hasProcess := false } .forceKill
      = ({ svc with hasProcess := false, status := .stopped }, none) ∧
    (stopService svc (.sigError "boom")).1.status = .failed := by
  intro svc
  have h1 := (c8_stop_service_branches svc .graceful).2.1 rfl (fun m h => by cases h)
  have h2 := (c8_stop_service_branches { svc with hasProcess := false } .forceKill).1 rfl
  have h3 := ((c8_stop_service_branches svc (.sigError "boom")).2.2 "boom" rfl rfl).1
  exact ⟨⟨h1.1, h1.2.2.2.1⟩, h2, h3⟩

/-- Characterization of `start_service` once the early guards pass
(capability present, not already running, resource gate satisfied): the
assigned ports are always the resolved assignment — also on every
failure path — the status is `running` exactly when nothing was raised
and `failed` otherwise, and a successful spawn hands the child the
resolved environment. -/
theorem startService_char (oracle : StartOracle) (parentEnv : List (String × String))
    (entry : SvcEntry) (overrides : Option (List (String × Int)))
    (cap : ServiceCapability) (hcap : entry.svc.capability = some cap)
    (hrun : entry.svc.is_running = false) (hres : oracle.resourceOk = true) :
    (startService oracle parentEnv entry overrides).svc.assigned_ports =
      (resolvePortsAndEnv (getConfiguredPorts entry) parentEnv cap.ports overrides).1 ∧
    ((startService oracle parentEnv entry overrides).raised = none →
      (startService oracle parentEnv entry overrides).svc.status = .running) ∧
    ((startService oracle parentEnv entry overrides).raised ≠ none →
      (startService oracle parentEnv entry overrides).svc.status = .failed ∧
      (startService oracle parentEnv entry overrides).svc.error =
        (startService oracle parentEnv entry overrides).raised) ∧
    (∀ pid, oracle.spawn = .ok pid →
      (startService oracle parentEnv entry overrides).spawnedEnv =
        some (injectEnvDefaults cap.environment
          (resolvePortsAndEnv (getConfiguredPorts entry) parentEnv cap.ports overrides).2)) := by
  simp only [startService, hcap, hrun, Bool.false_eq_true, if_false, hres, Bool.not_true]
  cases hsp : oracle.spawn with
  | error e => simp
  | ok pid =>
    cases hh : optStrTruthy cap.health_check_path with
    | false =>
      cases hb : oracle.behavior <;> simp
    | true =>
      cases hapi :
          apiPortTruthy (resolvePortsAndEnv (getConfiguredPorts entry) parentEnv cap.ports overrides).1 with
      | false => simp
      | true =>
        cases hb : oracle.behavior <;> simp

/-- **C3** is false on the code: a start that fails (the child exits
during startup) leaves `assigned_ports` populated while `status = failed`
(service_manager.py:107-143 never clears `assigned_ports` in the
`except` path). -/
theorem c3_counterexample :
    let cap : ServiceCapability :=
      { ports := [("api", { default := 8000, env_var := some "API_PORT" })] }
    let entry : SvcEntry :=
      { svc := { id := "svc_a", status := .ready, capability := some cap },
        folder := {} }
    let res := startService
      { resourceOk := true, spawn := .ok 4242, behavior := .exits 1 } [] entry none
    res.svc.status = .failed ∧ res.svc.assigned_ports = [("api", 8000)] ∧
    ¬ (res.svc.status = .starting ∨ res.svc.status = .running) ∧
    ¬ res.svc.assigned_ports = [] := by decide

/-- **C3 (amended)**: a *successful* stop ends `stopped` with
`assigned_ports` cleared, and a stop of a process-less service leaves
previously assigned ports untouched; a start that fails after passing
the guards ends `failed` with `assigned_ports` equal to the full
resolved assignment — non-empty whenever the capability declares ports —
rather than empty. -/
theorem c3_amended_assigned_ports
    (svc : Service) (outcome : StopOutcome) (oracle : StartOracle)
    (parentEnv : List (String × String)) (entry : SvcEntry)
    (overrides : Option (List (String × Int))) :
    (svc.hasProcess = true → (∀ m, outcome ≠ StopOutcome.sigError m) →
      (stopService svc outcome).1.status = .stopped ∧
      (stopService svc outcome).1.assigned_ports = []) ∧
    (svc.hasProcess = false →
      (stopService svc outcome).1.assigned_ports = svc.assigned_ports) ∧
    (∀ cap, entry.svc.capability = some cap → entry.svc.is_running = false →
      oracle.resourceOk = true →
      (startService oracle parentEnv entry overrides).raised ≠ none →
      (startService oracle parentEnv entry overrides).svc.status = .failed ∧
      (startService oracle parentEnv entry overrides).svc.assigned_ports =
        (resolvePortsAndEnv (getConfiguredPorts entry) parentEnv cap.ports overrides).1) := by
  refine ⟨?_, ?_, ?_⟩
  · intro h hn
    cases outcome with
    | graceful => simp [stopService, h]
    | forceKill => simp [stopService, h]
    | sigError m => exact absurd rfl (hn m)
  · intro h; simp [stopService, h]
  · intro cap hcap hrun hres hraise
    have hc := startService_char oracle parentEnv entry overrides cap hcap hrun hres
    exact ⟨(hc.2.2.1 hraise).1, hc.1⟩

/-- Witness for `c3_amended_assigned_ports` at concrete inputs. -/
theorem c3_amended_assigned_ports_witness :
    let svc : Service := { id := "svc_a", status := .running, hasProcess := true,
                           assigned_ports := [("api", 8000)] }
    let cap : ServiceCapability :=
      { ports := [("api", { default := 8000, env_var := some "API_PORT" })] }
    let entry : SvcEntry :=
      { svc := { id := "svc_b", status := .ready, capability := some cap },
        folder := {} }
    let oracle : StartOracle :=
      { resourceOk := true, spawn := .ok 7, behavior := .exits 1 }
    ((stopService svc .graceful).1.status = .stopped ∧
      (stopService svc .graceful).1.assigned_ports = []) ∧
    ((startService oracle [] entry none).svc.status = .failed ∧
      (startService oracle [] entry none).svc.assigned_ports =
        (resolvePortsAndEnv (getConfiguredPorts entry) [] cap.ports none).1) := by
  intro svc cap entry oracle
  have h := c3_amended_assigned_ports svc .graceful oracle [] entry none
  exact ⟨h.1 rfl (fun m hm => by cases hm),
         h.2.2 cap rfl rfl rfl (by decide)⟩

theorem lookupA_ne_nil {κ α : Type} [DecidableEq κ] {k : κ} {l : List (κ × α)} {v : α}
    (h : lookupA k l = some v) : l ≠ [] := by
  intro hnil; subst hnil; simp [lookupA] at h

theorem portStep_assigned_other (configured : List (String × Int))
    (st : List (String × Int) × List (String × String)) (kp : String × PortConfig)
    (k : String) (h : kp.1 ≠ k) :
    lookupA k (portStep configured st kp).1 = lookupA k st.1 := by
  unfold portStep
  cases hl : lookupA kp.1 st.1 <;>
    simp [hl, lookupA_insertA_ne _ _ _ (Ne.symm h)]

theorem portsFold_assigned_not_mem (configured : List (String × Int)) :
    ∀ (ports : List (String × PortConfig))
      (st : List (String × Int) × List (String × String)) (k : String),
      k ∉ ports.map Prod.fst →
      lookupA k (ports.foldl (portStep configured) st).1 = lookupA k st.1 := by
  intro ports
  induction ports with
  | nil => intro st k _; rfl
  | cons hd tl ih =>
    intro st k hk
    rw [List.map_cons, List.mem_cons] at hk
    push_neg at hk
    rw [List.foldl_cons, ih _ k hk.2,
      portStep_assigned_other configured st hd k (fun h => hk.1 h.symm)]

theorem portsFold_assigned_mem (configured : List (String × Int)) :
    ∀ (ports : List (String × PortConfig))
      (st : List (String × Int) × List (String × String)) (k : String) (pc : PortConfig),
      (k, pc) ∈ ports → (ports.map Prod.fst).Nodup →
      lookupA k (ports.foldl (portStep configured) st).1 =
        some ((lookupA k st.1).getD ((lookupA k configured).getD pc.default)) := by
  intro ports
  induction ports with
  | nil => intro st k pc hmem; simp at hmem
  | cons hd tl ih =>
    intro st k pc hmem hnd
    rw [List.map_cons, List.nodup_cons] at hnd
    rw [List.mem_cons] at hmem
    rcases hmem with heq | hmem
    · subst heq
      rw [List.foldl_cons, portsFold_assigned_not_mem configured tl _ k hnd.1]
      cases hl : lookupA k st.1 with
      | none => simp [portStep, hl, lookupA_insertA_self]
      | some p => simp [portStep, hl]
    · have hne : hd.1 ≠ k := by
        intro h
        exact hnd.1 (h ▸ (List.mem_map.mpr ⟨(k, pc), hmem, rfl⟩))
      rw [List.foldl_cons, ih _ k pc hmem hnd.2, portStep_assigned_other configured st hd k hne]

theorem portsFold_env_untouched (configured : List (String × Int)) :
    ∀ (ports : List (String × PortConfig))
      (st : List (String × Int) × List (String × String)) (v : String),
      v ≠ "" → (∀ kp ∈ ports, kp.2.env_var ≠ some v) →
      lookupA v (ports.foldl (portStep configured) st).2 = lookupA v st.2 := by
  intro ports
  induction ports with
  | nil => intro st v _ _; rfl
  | cons hd tl ih =>
    intro st v hv hall
    rw [List.foldl_cons, ih _ v hv (fun kp hk => hall kp (List.mem_cons_of_mem _ hk))]
    have hhd := hall hd (List.mem_cons_self _ _)
    unfold portStep
    cases he : hd.2.env_var with
    | none => simp [optStrTruthy]
    | some s =>
      by_cases hs : s = ""
      · simp [optStrTruthy, hs]
      · have hsv : s ≠ v := fun h => hhd (h ▸ he)
        simp only [optStrTruthy, hs]
        simp [lookupA_insertA_ne _ _ _ (Ne.symm hsv), hs]

theorem portsFold_env_mem (configured : List (String × Int)) :
    ∀ (ports : List (String × PortConfig))
      (st : List (String × Int) × List (String × String))
      (k : String) (pc : PortConfig) (v : String),
      (k, pc) ∈ ports → (ports.map Prod.fst).Nodup →
      pc.env_var = some v → v ≠ "" →
      (∀ kp ∈ ports, kp.1 ≠ k → kp.2.env_var ≠ some v) →
      lookupA v (ports.foldl (portStep configured) st).2 =
        some (toString ((lookupA k st.1).getD ((lookupA k configured).getD pc.default))) := by
  intro ports
  induction ports with
  | nil => intro st k pc v hmem; simp at hmem
  | cons hd tl ih =>
    intro st k pc v hmem hnd hev hvne hall
    rw [List.map_cons, List.nodup_cons] at hnd
    rw [List.mem_cons] at hmem
    rcases hmem with heq | hmem
    · subst heq
      rw [List.foldl_cons]
      have htl : ∀ kp ∈ tl, kp.2.env_var ≠ some v := by
        intro kp hk
        have hne : kp.1 ≠ k := by
          intro h
          exact hnd.1 (h ▸ (List.mem_map.mpr ⟨kp, hk, rfl⟩))
        exact hall kp (List.mem_cons_of_mem _ hk) hne
      rw [portsFold_env_untouched configured tl _ v hvne htl]
      cases hl : lookupA k st.1 with
      | none => simp [portStep, hl, hev, optStrTruthy, hvne, lookupA_insertA_self]
      | some p => simp [portStep, hl, hev, optStrTruthy, hvne, lookupA_insertA_self]
    · have hne : hd.1 ≠ k := by
        intro h
        exact hnd.1 (h ▸ (List.mem_map.mpr ⟨(k, pc), hmem, rfl⟩))
      rw [List.foldl_cons,
        ih _ k pc v hmem hnd.2 hev hvne
          (fun kp hk hkne => hall kp (List.mem_cons_of_mem _ hk) hkne),
        portStep_assigned_other configured st hd k hne]

theorem injectEnvDefaults_preserves :
    ∀ (decls : List EnvDecl) (env : List (String × String)) (v x : String),
      lookupA v env = some x → lookupA v (injectEnvDefaults decls env) = some x := by
  intro decls
  induction decls with
  | nil => intro env v x h; exact h
  | cons d tl ih =>
    intro env v x h
    rw [injectEnvDefaults, List.foldl_cons]
    show lookupA v (injectEnvDefaults tl (envDeclStep env d)) = some x
    refine ih _ v x ?_
    unfold envDeclStep
    cases hn : d.name with
    | none => exact h
    | some n =>
      by_cases hne : n = ""
      · simp only [hne, if_true]; exact h
      · simp only [hne, if_false]
        cases hl : lookupA n env with
        | some y => exact h
        | none =>
          have hnv : n ≠ v := by intro he; rw [he, h] at hl; cases hl
          rw [lookupA_insertA_ne _ _ _ (Ne.symm hnv)]
          exact h

theorem injectEnvDefaults_inserts :
    ∀ (decls : List EnvDecl) (env : List (String × String)) (d : EnvDecl) (n : String),
      d ∈ decls → d.name = some n → n ≠ "" →
      (∀ d' ∈ decls, d' ≠ d → d'.name ≠ some n) →
      lookupA n env = none →
      lookupA n (injectEnvDefaults decls env) = some d.defaultVal := by
  intro decls
  induction decls with
  | nil => intro env d n hmem; simp at hmem
  | cons d0 tl ih =>
    intro env d n hmem hdn hn hothers habs
    rw [injectEnvDefaults, List.foldl_cons]
    show lookupA n (injectEnvDefaults tl (envDeclStep env d0)) = some d.defaultVal
    by_cases hd0 : d0 = d
    · subst hd0
      have hstep : envDeclStep env d0 = insertA n d0.defaultVal env := by
        unfold envDeclStep
        rw [hdn]
        simp only [hn, if_false, habs]
      rw [hstep]
      exact injectEnvDefaults_preserves tl _ n d0.defaultVal (lookupA_insertA_self _ _ _)
    · have hd0n : d0.name ≠ some n := hothers d0 (List.mem_cons_self _ _) hd0
      have hmem' : d ∈ tl := by
        rcases List.mem_cons.mp hmem with h | h
        · exact absurd h.symm hd0
        · exact h
      have hothers' : ∀ d' ∈ tl, d' ≠ d → d'.name ≠ some n :=
        fun d' hd' => hothers d' (List.mem_cons_of_mem _ hd')
      have habs' : lookupA n (envDeclStep env d0) = none := by
        unfold envDeclStep
        cases hn0 : d0.name with
        | none => exact habs
        | some m =>
          have hmn : m ≠ n := fun h => hd0n (h ▸ hn0)
          by_cases hme : m = ""
          · simp only [hme, if_true]; exact habs
          · simp only [hme, if_false]
            cases hl : lookupA m env with
            | some y => exact habs
            | none =>
              rw [lookupA_insertA_ne _ _ _ (Ne.symm hmn)]
              exact habs
      exact ih _ d n hmem' hdn hn hothers' habs'

theorem getConfiguredPorts_mem (entry : SvcEntry) (cap : ServiceCapability)
    (hcap : entry.svc.capability = some cap) (k : String) (pc : PortConfig)
    (hmem : (k, pc) ∈ cap.ports) (hnd : (cap.ports.map Prod.fst).Nodup) :
    lookupA k (getConfiguredPorts entry) =
      some (envConfiguredPort (managerEnvVars entry.folder) pc) := by
  simp only [getConfiguredPorts, hcap]
  exact lookupA_foldl_insertA_mem
    (fun kp => envConfiguredPort (managerEnvVars entry.folder) kp.2)
    cap.ports [] k pc hmem hnd

/-- **C5** is false on the code in one corner: when a declared environment
variable has the same name as a port's `env_var`, its default is *not*
injected even though the name is absent from the parent environment —
the port value injected at service_manager.py:77-78 makes the
`var_name not in env` test at line 83 fail. -/
theorem c5_counterexample :
    let pc : PortConfig := { default := 8000, env_var := some "API_PORT" }
    let cap : ServiceCapability :=
      { ports := [("api", pc)],
        environment := [{ name := some "API_PORT", defaultVal := "1234" }] }
    let entry : SvcEntry :=
      { svc := { id := "svc_a", status := .ready, capability := some cap },
        folder := {} }
    let res := startService
      { resourceOk := true, spawn := .ok 7, behavior := .respondsOk } [] entry none
    lookupA "API_PORT" ([] : List (String × String)) = none ∧
    res.spawnedEnv = some [("API_PORT", "8000")] ∧
    lookupA "API_PORT" [("API_PORT", "8000")] = some "8000" ∧
    ("8000" : String) ≠ "1234" := by decide

/-- **C5 (amended)**: start resolves each declared port with precedence
explicit override → value configured in the `.env` file (invalid values
falling back to the default) → manifest default, and exports it under
the declared env var; every declared environment variable's default is
injected for truthy names not already set in the environment *as built
at that point* — the parent environment plus the injected port
variables — rather than merely "not set in the parent environment". -/
theorem c5_amended_start_resolution
    (oracle : StartOracle) (parentEnv : List (String × String)) (entry : SvcEntry)
    (overrides : Option (List (String × Int))) (cap : ServiceCapability)
    (hcap : entry.svc.capability = some cap)
    (hrun : entry.svc.is_running = false) (hres : oracle.resourceOk = true)
    (hnd : (cap.ports.map Prod.fst).Nodup) :
    (∀ k pc, (k, pc) ∈ cap.ports →
      lookupA k (startService oracle parentEnv entry overrides).svc.assigned_ports =
        some ((lookupA k (effOverrides overrides)).getD
          (envConfiguredPort (managerEnvVars entry.folder) pc))) ∧
    (∀ k pc v pid, (k, pc) ∈ cap.ports → pc.env_var = some v → v ≠ "" →
      (∀ kp ∈ cap.ports, kp.1 ≠ k → kp.2.env_var ≠ some v) →
      oracle.spawn = .ok pid →
      ∃ e, (startService oracle parentEnv entry overrides).spawnedEnv = some e ∧
        lookupA v e = some (toString ((lookupA k (effOverrides overrides)).getD
          (envConfiguredPort (managerEnvVars entry.folder) pc)))) ∧
    (∀ d n pid, d ∈ cap.environment → d.name = some n → n ≠ "" →
      (∀ d' ∈ cap.environment, d' ≠ d → d'.name ≠ some n) →
      lookupA n (resolvePortsAndEnv (getConfiguredPorts entry)
        parentEnv cap.ports overrides).2 = none →
      oracle.spawn = .ok pid →
      ∃ e, (startService oracle parentEnv entry overrides).spawnedEnv = some e ∧
        lookupA n e = some d.defaultVal) := by
  have hc := startService_char oracle parentEnv entry overrides cap hcap hrun hres
  refine ⟨?_, ?_, ?_⟩
  · intro k pc hmem
    rw [hc.1]
    unfold resolvePortsAndEnv
    rw [portsFold_assigned_mem _ cap.ports _ k pc hmem hnd]
    rw [show lookupA k ((effOverrides overrides, parentEnv) :
          List (String × Int) × List (String × String)).1 =
        lookupA k (effOverrides overrides) from rfl]
    rw [getConfiguredPorts_mem entry cap hcap k pc hmem hnd]
    rfl
  · intro k pc v pid hmem hev hvne hall hsp
    refine ⟨_, hc.2.2.2 pid hsp, ?_⟩
    have henv := portsFold_env_mem (getConfiguredPorts entry) cap.ports
      (effOverrides overrides, parentEnv) k pc v hmem hnd hev hvne hall
    rw [getConfiguredPorts_mem entry cap hcap k pc hmem hnd] at henv
    exact injectEnvDefaults_preserves cap.environment _ v _ henv
  · intro d n pid hmem hdn hnne hothers habs hsp
    exact ⟨_, hc.2.2.2 pid hsp,
      injectEnvDefaults_inserts cap.environment _ d n hmem hdn hnne hothers habs⟩

/-- Witness for `c5_amended_start_resolution`: a service whose `.env`
overrides the api port to 8100 and which declares one extra environment
variable. -/
theorem c5_amended_start_resolution_witness :
    let pc : PortConfig := { default := 8000, env_var := some "API_PORT" }
    let cap : ServiceCapability :=
      { ports := [("api", pc)],
        environment := [{ name := some "EXTRA", defaultVal := "x" }] }
    let entry : SvcEntry :=
      { svc := { id := "svc_a", status := .ready, capability := some cap },
        folder := { envLines := some ["API_PORT=8100"] } }
    let oracle : StartOracle := { resourceOk := true, spawn := .ok 7 }
    lookupA "api" (startService oracle [] entry none).svc.assigned_ports = some 8100 ∧
    (∃ e, (startService oracle [] entry none).spawnedEnv = some e ∧
      lookupA "API_PORT" e = some "8100") ∧
    (∃ e, (startService oracle [] entry none).spawnedEnv = some e ∧
      lookupA "EXTRA" e = some "x") := by
  intro pc cap entry oracle
  have h := c5_amended_start_resolution oracle [] entry none cap rfl rfl rfl (by decide)
  refine ⟨?_, ?_, ?_⟩
  · have := h.1 "api" pc (by decide)
    rw [this]; decide
  · have := h.2.1 "api" pc "API_PORT" 7 (by decide) rfl (by decide)
      (by intro kp hk hne; simp at hk; rw [hk] at hne; simp at hne) rfl
    obtain ⟨e, he, hl⟩ := this
    refine ⟨e, he, ?_⟩
    rw [hl]; decide
  · exact h.2.2 { name := some "EXTRA", defaultVal := "x" } "EXTRA" 7
      (by decide) rfl (by decide)
      (by intro d' hd' hne; simp at hd'; rw [hd'] at hne; simp at hne) (by decide) rfl

theorem stopService_no_raise (svc : Service) (outcome : StopOutcome)
    (hnosig : ∀ m, outcome ≠ StopOutcome.sigError m) :
    (stopService svc outcome).2 = none ∧
    (stopService svc outcome).1.capability = svc.capability ∧
    (stopService svc outcome).1.is_running = false := by
  cases outcome with
  | sigError m => exact absurd rfl (hnosig m)
  | graceful =>
    by_cases h : svc.hasProcess <;> simp [stopService, h, Service.is_running]
  | forceKill =>
    by_cases h : svc.hasProcess <;> simp [stopService, h, Service.is_running]

/-- **C6**: `restart_service` captures `assigned_ports` before stopping;
the subsequent start uses the explicit overrides if given (non-empty),
else exactly the previously-held ports — it never falls back to manifest
defaults for a port the service already held. -/
theorem c6_restart_previous_ports
    (stopOut : StopOutcome) (oracle : StartOracle) (parentEnv : List (String × String))
    (entry : SvcEntry) (cap : ServiceCapability)
    (hcap : entry.svc.capability = some cap)
    (hnd : (cap.ports.map Prod.fst).Nodup)
    (hres : oracle.resourceOk = true)
    (hrun : entry.svc.is_running = true)
    (hnosig : ∀ m, stopOut ≠ StopOutcome.sigError m) :
    (∀ k pc p, (k, pc) ∈ cap.ports →
      lookupA k entry.svc.assigned_ports = some p →
      lookupA k (restartService stopOut oracle parentEnv entry none).svc.assigned_ports
        = some p) ∧
    (∀ (l : List (String × Int)) k pc p, l ≠ [] → (k, pc) ∈ cap.ports →
      lookupA k l = some p →
      lookupA k (restartService stopOut oracle parentEnv entry (some l)).svc.assigned_ports
        = some p) := by
  have hstop := stopService_no_raise entry.svc stopOut hnosig
  rcases hsv : stopService entry.svc stopOut with ⟨svc', r⟩
  rw [hsv] at hstop
  have hr : r = none := hstop.1
  subst hr
  have hcap' : svc'.capability = some cap := by
    have := hstop.2.1
    simp only at this
    rw [this]; exact hcap
  have hrun' : svc'.is_running = false := hstop.2.2
  constructor
  · intro k pc p hmem hlk
    have hne : entry.svc.assigned_ports ≠ [] := lookupA_ne_nil hlk
    have hform : restartService stopOut oracle parentEnv entry none =
        startService oracle parentEnv { entry with svc := svc' }
          (some entry.svc.assigned_ports) := by
      simp only [restartService, hrun, if_true, hsv, pyOrOpt, capturedOldPorts, hne]
      simp [hne]
    rw [hform]
    have hc := startService_char oracle parentEnv { entry with svc := svc' }
      (some entry.svc.assigned_ports) cap hcap' hrun' hres
    rw [hc.1]
    unfold resolvePortsAndEnv
    rw [portsFold_assigned_mem _ cap.ports _ k pc hmem hnd]
    simp [effOverrides, hlk]
  · intro l k pc p hl hmem hlk
    have hform : restartService stopOut oracle parentEnv entry (some l) =
        startService oracle parentEnv { entry with svc := svc' } (some l) := by
      simp only [restartService, hrun, if_true, hsv, pyOrOpt, hl]
      simp [hl]
    rw [hform]
    have hc := startService_char oracle parentEnv { entry with svc := svc' }
      (some l) cap hcap' hrun' hres
    rw [hc.1]
    unfold resolvePortsAndEnv
    rw [portsFold_assigned_mem _ cap.ports _ k pc hmem hnd]
    simp [effOverrides, hlk]

/-- Witness for `c6_restart_previous_ports`: a running service holding
the overridden port 9000 (manifest default 8000) keeps 9000 across a
restart without overrides. -/
theorem c6_restart_previous_ports_witness :
    let pc : PortConfig := { default := 8000, env_var := some "API_PORT" }
    let cap : ServiceCapability := { ports := [("api", pc)] }
    let entry : SvcEntry :=
      { svc := { id := "svc_a", status := .running, capability := some cap,
                 hasProcess := true, pid := some 3,
                 assigned_ports := [("api", 9000)] },
        folder := {} }
    let oracle : StartOracle := { resourceOk := true, spawn := .ok 7 }
    lookupA "api"
      (restartService .graceful oracle [] entry none).svc.assigned_ports = some 9000 := by
  intro pc cap entry oracle
  exact (c6_restart_previous_ports .graceful oracle [] entry cap rfl (by decide) rfl rfl
    (fun m h => by cases h)).1 "api" pc 9000 (by decide) (by decide)

theorem subScanF_id (m : Matcher) (f : RMatch → List Char) :
    ∀ (fuel : Nat) (s : List Char), s.length ≤ fuel →
      (∀ mt ∈ scanMF m fuel s, f mt = mt.matched) →
      subScanF m f fuel s = s := by
  intro fuel
  induction fuel with
  | zero => intro s _ _; rfl
  | succ n ih =>
    intro s hlen hall
    cases hrun : m.run s with
    | some pr =>
      obtain ⟨mt, r⟩ := pr
      have hok := m.run_ok hrun
      have hlen' : r.length ≤ n := by
        have hl := congrArg List.length hok.1
        rw [List.length_append] at hl
        have hm1 : mt.matched.length ≠ 0 := by
          intro h0
          exact hok.2 (List.length_eq_zero.mp h0)
        omega
      have hf : f mt = mt.matched := by
        refine hall mt ?_
        simp only [scanMF, hrun]
        exact List.mem_cons_self _ _
      have htl : ∀ mt' ∈ scanMF m n r, f mt' = mt'.matched := by
        intro mt' hmt'
        refine hall mt' ?_
        simp only [scanMF, hrun]
        exact List.mem_cons_of_mem _ hmt'
      simp only [subScanF, hrun]
      rw [hf, ih r hlen' htl]
      exact hok.1
    | none =>
      cases s with
      | nil => simp [subScanF, hrun]
      | cons c cs =>
        have hlen' : cs.length ≤ n := by
          rw [List.length_cons] at hlen
          omega
        have htl : ∀ mt' ∈ scanMF m n cs, f mt' = mt'.matched := by
          intro mt' hmt'
          refine hall mt' ?_
          simp only [scanMF, hrun]
          exact hmt'
        simp only [subScanF, hrun]
        rw [ih cs hlen' htl]

theorem applyPattern_id (m : Matcher) (oldS newS s : List Char)
    (h : ∀ mt ∈ scanMF m s.length s, mt.port ≠ some oldS) :
    applyPattern oldS newS s m = (s, 0) := by
  have h1 : subScanF m (portReplacer oldS newS) s.length s = s :=
    subScanF_id m _ s.length s le_rfl (fun mt hmt => by
      unfold portReplacer
      rw [if_neg (h mt hmt)])
  have h2 : (scanMF m s.length s).countP (fun mt => decide (mt.port = some oldS)) = 0 :=
    List.countP_eq_zero.mpr (fun mt hmt => by simp [h mt hmt])
  unfold applyPattern
  rw [h1, h2]

theorem foldPatterns_id (oldS newS : List Char) :
    ∀ (ms : List Matcher) (content : List Char) (k : Nat),
      (∀ m ∈ ms, ∀ mt ∈ scanMF m content.length content, mt.port ≠ some oldS) →
      ms.foldl (fun acc m =>
        let r := applyPattern oldS newS acc.1 m
        (r.1, acc.2 + r.2)) (content, k) = (content, k) := by
  intro ms
  induction ms with
  | nil => intro content k _; rfl
  | cons m tl ih =>
    intro content k hall
    rw [List.foldl_cons]
    have h1 := applyPattern_id m oldS newS content (hall m (List.mem_cons_self _ _))
    simp only [h1, Nat.add_zero]
    exact ih content k (fun m' hm' => hall m' (List.mem_cons_of_mem _ hm'))

theorem replacePortInReadme_id (content : List Char) (oldP newP : Int)
    (h : ∀ m ∈ readmeMatchers, ∀ mt ∈ scanMF m content.length content,
        mt.port ≠ some ((toString oldP).toList)) :
    replacePortInReadme content oldP newP = (content, 0) := by
  unfold replacePortInReadme
  exact foldPatterns_id _ _ readmeMatchers content 0 h

theorem readmeChangeStep_skip :
    ∀ (chs : List ResolveChange) (st : List Char × Nat),
      (∀ ch ∈ chs, ch.old_port = ch.new_port) →
      chs.foldl readmeChangeStep st = st := by
  intro chs
  induction chs with
  | nil => intro st _; rfl
  | cons ch tl ih =>
    intro st hall
    rw [List.foldl_cons]
    have hstep : readmeChangeStep st ch = st := by
      unfold readmeChangeStep
      rw [if_pos (hall ch (List.mem_cons_self _ _))]
    rw [hstep]
    exact ih st (fun ch' h' => hall ch' (List.mem_cons_of_mem _ h'))

/-- **C7**: rewriting a README for a port change `old→new` replaces a
number only where one of the five recognized token shapes (localhost
URL, table cell, `key=value`, `--port`-style flag, bare colon-port)
matches with the digit group literally equal to `old`; every other
number — e.g. the time `10:00` — is left unchanged, no rewrite happens
when `old = new`, and a missing README yields no update and no error. -/
theorem c7_readme_rewrite :
    (∀ changes, updateReadmePorts none changes =
      ({ updated := false, changes_made := 0, hasPath := false }, none)) ∧
    (∀ (content : String) (changes : List ResolveChange),
      (∀ ch ∈ changes, ch.old_port = ch.new_port) →
      updateReadmePorts (some content) changes =
        ({ updated := false, changes_made := 0, hasPath := true }, some content)) ∧
    (∀ (content : String) (ch : ResolveChange),
      (∀ m ∈ readmeMatchers, ∀ mt ∈ scanMF m content.toList.length content.toList,
          mt.port ≠ some ((toString ch.old_port).toList)) →
      updateReadmePorts (some content) [ch] =
        ({ updated := false, changes_made := 0, hasPath := true }, some content)) ∧
    (updateReadmePorts (some "Visit http://localhost:8200 at 10:00\n")
        [{ port_key := "api", env_var := "API_PORT", old_port := 8200, new_port := 8250 }] =
      ({ updated := true, changes_made := 1, hasPath := true },
        some "Visit http://localhost:8250 at 10:00\n")) ∧
    ((updateReadmePorts (some "PORT=8200\n| 8200 |\nrun --port 8200\nuse :8200 now\n")
        [{ port_key := "api", env_var := "API_PORT", old_port := 8200, new_port := 8250 }]).2 =
      some "PORT=8250\n| 8250 |\nrun --port 8250\nuse :8250 now\n") ∧
    (updateReadmePorts (some "meet at 10:00\n")
        [{ port_key := "api", env_var := "API_PORT", old_port := 8200, new_port := 8250 }] =
      ({ updated := false, changes_made := 0, hasPath := true }, some "meet at 10:00\n")) := by
  refine ⟨fun changes => rfl, ?_, ?_, by decide, by decide, by decide⟩
  · intro content changes hall
    simp only [updateReadmePorts]
    rw [readmeChangeStep_skip changes _ hall]
    simp
  · intro content ch hno
    have hstep : readmeChangeStep (content.toList, 0) ch = (content.toList, 0) := by
      unfold readmeChangeStep
      by_cases heq : ch.old_port = ch.new_port
      · rw [if_pos heq]
      · rw [if_neg heq]
        have hid := replacePortInReadme_id content.toList ch.old_port ch.new_port hno
        simp only [hid]
        simp
    simp only [updateReadmePorts]
    rw [List.foldl_cons, List.foldl_nil, hstep]
    simp

/-- Witness for `c7_readme_rewrite` at concrete READMEs. -/
theorem c7_readme_rewrite_witness :
    (updateReadmePorts none
        [{ port_key := "api", env_var := "API_PORT", old_port := 8200, new_port := 8250 }] =
      ({ updated := false, changes_made := 0, hasPath := false }, none)) ∧
    (updateReadmePorts (some "x=8200\n")
        [{ port_key := "api", env_var := "API_PORT", old_port := 8200, new_port := 8200 }] =
      ({ updated := false, changes_made := 0, hasPath := true }, some "x=8200\n")) ∧
    (updateReadmePorts (some "meet at 10:00\n")
        [{ port_key := "api", env_var := "API_PORT", old_port := 8200, new_port := 8250 }] =
      ({ updated := false, changes_made := 0, hasPath := true }, some "meet at 10:00\n")) :=
  ⟨c7_readme_rewrite.1 _,
   c7_readme_rewrite.2.1 "x=8200\n" _ (by decide),
   c7_readme_rewrite.2.2.1 "meet at 10:00\n"
     { port_key := "api", env_var := "API_PORT", old_port := 8200, new_port := 8250 }
     (by decide)⟩

theorem exStep_error {α β : Type} (e : String) (f : α → Except String β) :
    exStep (.error e) f = .error e := rfl

theorem exStep_ok {α β : Type} (a : α) (f : α → Except String β) :
    exStep (.ok a) f = f a := rfl

theorem resProjE_skip (x : Except String (List ResolveServiceResult × List SvcEntry))
    (ent : SvcEntry) :
    resProjE (exStep x (fun pr2 => .ok (pr2.1, ent :: pr2.2))) = resProjE x := by
  cases x with
  | error e => rfl
  | ok pr2 => rfl

theorem resProjE_cons (x : Except String (List ResolveServiceResult × List SvcEntry))
    (hrec : ResolveServiceResult) (ent : SvcEntry) :
    resProjE (exStep x (fun pr2 => .ok (hrec :: pr2.1, ent :: pr2.2))) =
      (match resProjE x with
       | .error e => .error e
       | .ok l => .ok ((hrec.service_id, hrec.changes, hrec.updated) :: l)) := by
  cases x with
  | error e => rfl
  | ok pr2 => rfl

theorem resolveServiceFinish_svc (entry : SvcEntry) (used' : List Int)
    (chs : List ResolveChange) (envs : List (String × Int)) :
    (resolveServiceFinish entry used' chs envs).1.2.svc = entry.svc := by
  unfold resolveServiceFinish
  split <;> rfl

theorem resolveServiceStep_svc (pr : PortRanges) (inUse : Int → Bool) (entry : SvcEntry)
    (cap : ServiceCapability) (used : List Int)
    (su : (ResolveServiceResult × SvcEntry) × List Int)
    (h : resolveServiceStep pr inUse entry cap used = .ok su) :
    su.1.2.svc = entry.svc := by
  unfold resolveServiceStep at h
  cases hloop : resolveConflictLoop pr inUse cap.ports used [] [] with
  | error e => rw [hloop, exStep_error] at h; exact Except.noConfusion h
  | ok t =>
    rw [hloop, exStep_ok] at h
    have h2 : (Except.ok (resolveServiceFinish entry t.1 t.2.1 t.2.2) :
        Except String ((ResolveServiceResult × SvcEntry) × List Int)) = .ok su := h
    cases h2
    exact resolveServiceFinish_svc entry t.1 t.2.1 t.2.2

theorem resolveServiceStep_agree (pr : PortRanges) (inUse : Int → Bool)
    (a b : SvcEntry) (cap : ServiceCapability) (used : List Int)
    (hsvc : a.svc = b.svc) :
    (∃ e, resolveServiceStep pr inUse a cap used = .error e ∧
          resolveServiceStep pr inUse b cap used = .error e) ∨
    (∃ su1 su2, resolveServiceStep pr inUse a cap used = .ok su1 ∧
                resolveServiceStep pr inUse b cap used = .ok su2 ∧
                su1.2 = su2.2 ∧
                su1.1.1.service_id = su2.1.1.service_id ∧
                su1.1.1.changes = su2.1.1.changes ∧
                su1.1.1.updated = su2.1.1.updated) := by
  unfold resolveServiceStep
  cases hloop : resolveConflictLoop pr inUse cap.ports used [] [] with
  | error e =>
    left
    exact ⟨e, rfl, rfl⟩
  | ok t =>
    right
    refine ⟨(resolveServiceFinish a t.1 t.2.1 t.2.2),
            (resolveServiceFinish b t.1 t.2.1 t.2.2),
            rfl, rfl, ?_, ?_, ?_, ?_⟩ <;>
      (unfold resolveServiceFinish; by_cases ht : t.2.2 = [] <;> simp [ht, hsvc])

theorem resolveAllGo_svcs (pr : PortRanges) (inUse : Int → Bool) :
    ∀ (entries : List SvcEntry) (used : List Int) (res : List ResolveServiceResult)
      (entries' : List SvcEntry),
      resolveAllGo pr inUse entries used = .ok (res, entries') →
      entries'.map SvcEntry.svc = entries.map SvcEntry.svc := by
  intro entries
  induction entries with
  | nil =>
    intro used res entries' h
    cases h
    rfl
  | cons entry rest ih =>
    intro used res entries' h
    rw [resolveAllGo] at h
    cases hcap : entry.svc.capability with
    | none =>
      have h1 : exStep (resolveAllGo pr inUse rest used)
          (fun pr2 => .ok (pr2.1, entry :: pr2.2)) = .ok (res, entries') := by
        rw [hcap] at h; exact h
      cases hgo : resolveAllGo pr inUse rest used with
      | error e => rw [hgo, exStep_error] at h1; exact Except.noConfusion h1
      | ok pr2 =>
        obtain ⟨res0, entries0⟩ := pr2
        rw [hgo, exStep_ok] at h1
        have h2 : (Except.ok (res0, entry :: entries0) :
            Except String (List ResolveServiceResult × List SvcEntry))
            = .ok (res, entries') := h1
        injection h2 with hpair
        injection hpair with hres hent
        subst hres
        subst hent
        rw [List.map_cons, List.map_cons, ih used res0 entries0 hgo]
    | some cap =>
      have h1 : exStep (resolveServiceStep pr inUse entry cap used)
          (fun su => exStep (resolveAllGo pr inUse rest su.2) (fun pr2 =>
            .ok (su.1.1 :: pr2.1, su.1.2 :: pr2.2))) = .ok (res, entries') := by
        rw [hcap] at h; exact h
      cases hstep : resolveServiceStep pr inUse entry cap used with
      | error e => rw [hstep, exStep_error] at h1; exact Except.noConfusion h1
      | ok su =>
        rw [hstep, exStep_ok] at h1
        have h2 : exStep (resolveAllGo pr inUse rest su.2) (fun pr2 =>
            .ok (su.1.1 :: pr2.1, su.1.2 :: pr2.2)) = .ok (res, entries') := h1
        cases hgo : resolveAllGo pr inUse rest su.2 with
        | error e => rw [hgo, exStep_error] at h2; exact Except.noConfusion h2
        | ok pr2 =>
          obtain ⟨res0, entries0⟩ := pr2
          rw [hgo, exStep_ok] at h2
          have h3 : (Except.ok (su.1.1 :: res0, su.1.2 :: entries0) :
              Except String (List ResolveServiceResult × List SvcEntry))
              = .ok (res, entries') := h2
          injection h3 with hpair
          injection hpair with hres hent
          subst hres
          subst hent
          rw [List.map_cons, List.map_cons, ih su.2 res0 entries0 hgo,
            resolveServiceStep_svc pr inUse entry cap used su hstep]

theorem resolveAllGo_proj (pr : PortRanges) (inUse : Int → Bool) :
    ∀ (e1 e2 : List SvcEntry) (used : List Int),
      e1.map SvcEntry.svc = e2.map SvcEntry.svc →
      resProjE (resolveAllGo pr inUse e1 used) = resProjE (resolveAllGo pr inUse e2 used) := by
  intro e1
  induction e1 with
  | nil =>
    intro e2 used hm
    cases e2 with
    | nil => rfl
    | cons b bs => exact absurd hm (by simp)
  | cons a as ih =>
    intro e2 used hm
    cases e2 with
    | nil => exact absurd hm (by simp)
    | cons b bs =>
      rw [List.map_cons, List.map_cons] at hm
      have hsvc : a.svc = b.svc := by injection hm
      have hm' : as.map SvcEntry.svc = bs.map SvcEntry.svc := by injection hm
      rw [resolveAllGo, resolveAllGo]
      have hcapeq : a.svc.capability = b.svc.capability := by rw [hsvc]
      cases hcap : b.svc.capability with
      | none =>
        simp only [hcapeq, hcap]
        rw [resProjE_skip, resProjE_skip]
        exact ih bs used hm'
      | some cap =>
        simp only [hcapeq, hcap]
        rcases resolveServiceStep_agree pr inUse a b cap used hsvc with
          ⟨e, he1, he2⟩ | ⟨su1, su2, h1, h2, hsu, hid, hchs, hupd⟩
        · rw [he1, he2, exStep_error, exStep_error]
        · simp only [h1, h2, exStep_ok]
          rw [resProjE_cons, resProjE_cons, hsu, ih bs su2.2 hm', hid, hchs, hupd]

/-- Claim C1 is false on the code: the resolution reads only the
capability defaults (port_configurator.py:199-228 uses
port_config.default, never the value written to .env), so an immediate
second run of resolve_all_conflicts on the state the first run produced
reports the very same non-empty change set again — here svc_b is moved
8000 → 8100 by both runs, with updated = true the second time as
well. -/
theorem c1_counterexample :
    c1SecondRun = some
      [("svc_a", [], false),
       ("svc_b", [{ port_key := "api", env_var := "API_PORT",
                    old_port := 8000, new_port := 8100 }], true)] := by decide

/-- Claim C1 (amended): a second run of resolve_all_conflicts on the
state left behind by a successful first run is reproducible, not
zero-change: it succeeds and reports exactly the same
(service_id, changes, updated) triples as the first run, because the
resolution depends only on each service's id and capability, which the
first run never modifies. -/
theorem c1_amended_second_run_repeats (pr : PortRanges) (inUse : Int → Bool)
    (entries st1 : List SvcEntry) (res1 : List ResolveServiceResult)
    (h : resolveAllConflicts pr inUse entries = .ok (res1, st1)) :
    ∃ res2 st2, resolveAllConflicts pr inUse st1 = .ok (res2, st2) ∧
      resProj res2 = resProj res1 := by
  have hsvcs : st1.map SvcEntry.svc = entries.map SvcEntry.svc :=
    resolveAllGo_svcs pr inUse entries [] res1 st1 h
  have hproj := resolveAllGo_proj pr inUse st1 entries [] hsvcs
  unfold resolveAllConflicts at h ⊢
  rw [h] at hproj
  cases h2 : resolveAllGo pr inUse st1 [] with
  | error e =>
    rw [h2] at hproj
    have hbad : (Except.error e : Except String (List (String × List ResolveChange × Bool)))
        = .ok (resProj res1) := hproj
    exact Except.noConfusion hbad
  | ok pr2 =>
    obtain ⟨res2, st2⟩ := pr2
    refine ⟨res2, st2, rfl, ?_⟩
    rw [h2] at hproj
    have hok : (Except.ok (resProj res2) : Except String (List (String × List ResolveChange × Bool)))
        = .ok (resProj res1) := hproj
    injection hok

/-- Witness for the amended C1 statement at the two-service scenario:
the first run moves svc_b to 8100 and writes its .env file, and the
second run repeats the same report. -/
theorem c1_amended_second_run_repeats_witness :
    (resolveAllConflicts {} (fun _ => false) c1Entries = .ok (c1Res1, c1St1)) ∧
    (∃ res2 st2, resolveAllConflicts {} (fun _ => false) c1St1 = .ok (res2, st2) ∧
      resProj res2 = resProj c1Res1) :=
  ⟨rfl, c1_amended_second_run_repeats {} (fun _ => false) c1Entries c1St1 c1Res1 rfl⟩

/-- Claim C2 is false on the code for resolve_all_conflicts: the
RuntimeError raised by the port search for one service propagates out
of the whole service loop (port_configurator.py:183-247 has no
per-service try/except), so the remaining services are never processed
and not a single per-service outcome is returned — here svc_one
resolves fine and svc_three would too, yet the batch returns only the
error raised while processing svc_two. -/
theorem c2_counterexample :
    resolveAllConflicts c2Pr (fun _ => false) c2Entries =
      .error "No available api ports in range" := rfl

/-- Claim C2 (amended): stop_all_services and sync_all_readmes do
aggregate per-service outcomes — every running service is attempted,
ending stopped, or failed exactly when its own signalling raised, and
the sync report has exactly one outcome per capability-bearing
service — but resolve_all_conflicts does not: a port-search error on
one service aborts the whole batch, discarding all outcomes. -/
theorem c2_amended_batch_behaviour :
    (∀ (outcomes : String → StopOutcome) (services : List Service) (s : Service),
      s ∈ services → s.is_running = true →
      ∃ s2, s2 ∈ stopAllServices outcomes services ∧ s2.id = s.id ∧
        (s2.status = .stopped ∨
         (s2.status = .failed ∧ ∃ m, outcomes s.id = .sigError m))) ∧
    (∀ entries : List SvcEntry,
      (syncAllReadmes entries).1.map Prod.fst =
        (entries.filter (fun e => e.svc.capability.isSome)).map (fun e => e.svc.id)) ∧
    (∀ (pr : PortRanges) (inUse : Int → Bool) (entry : SvcEntry)
      (cap : ServiceCapability) (rest : List SvcEntry) (used : List Int) (e : String),
      entry.svc.capability = some cap →
      resolveServiceStep pr inUse entry cap used = .error e →
      resolveAllGo pr inUse (entry :: rest) used = .error e) := by
  refine ⟨?_, ?_, ?_⟩
  · intro outcomes services s hmem hrun
    refine ⟨(stopService s (outcomes s.id)).1, ?_, ?_, ?_⟩
    · simp only [stopAllServices]
      exact List.mem_map.mpr ⟨s, hmem, by simp [hrun]⟩
    · cases hp : s.hasProcess <;> cases ho : outcomes s.id <;>
        simp [stopService, hp]
    · cases hp : s.hasProcess with
      | false => exact Or.inl (by simp [stopService, hp])
      | true =>
        cases ho : outcomes s.id with
        | graceful => exact Or.inl (by simp [stopService, hp, ho])
        | forceKill => exact Or.inl (by simp [stopService, hp, ho])
        | sigError m =>
          exact Or.inr ⟨by simp [stopService, hp], m, rfl⟩
  · intro entries
    induction entries with
    | nil => rfl
    | cons entry rest ih =>
      cases hcap : entry.svc.capability with
      | none => simp [syncAllReadmes, hcap, List.filter_cons, ih]
      | some cap => simp [syncAllReadmes, hcap, List.filter_cons, ih]
  · intro pr inUse entry cap rest used e hcap hstep
    have hu : resolveAllGo pr inUse (entry :: rest) used
        = exStep (resolveServiceStep pr inUse entry cap used) (fun su =>
            exStep (resolveAllGo pr inUse rest su.2) (fun pr2 =>
              Except.ok (su.1.1 :: pr2.1, su.1.2 :: pr2.2))) := by
      rw [resolveAllGo, hcap]
    rw [hu, hstep]
    rfl

/-- Witness for the amended C2 statement: a single running service
whose stop signalling raises still yields a per-service outcome. -/
theorem c2_amended_batch_behaviour_witness :
    ∃ s2, s2 ∈ stopAllServices (fun _ => StopOutcome.sigError "boom") [c2SvcRun] ∧
      s2.id = c2SvcRun.id ∧
      (s2.status = .stopped ∨
       (s2.status = .failed ∧
        ∃ m, (fun _ => StopOutcome.sigError "boom") c2SvcRun.id = StopOutcome.sigError m)) :=
  c2_amended_batch_behaviour.1 (fun _ => StopOutcome.sigError "boom") [c2SvcRun] c2SvcRun
    (List.mem_singleton.mpr rfl) rfl

/-- Claim C9: a declared port whose config has no truthy env_var is
skipped entirely by the conflict loop — the claimed-port set, the
change list and the pending .env writes continue unchanged, so the
port's default is neither recorded nor claimed; concretely, with
svc_noenv (api default 8000, no env_var) processed before svc_env (api
default 8000 via API_PORT), both services end with zero changes and the
collision on 8000 persists. -/
theorem c9_no_env_var_skipped (pr : PortRanges) (inUse : Int → Bool)
    (key : String) (pc : PortConfig) (rest : List (String × PortConfig))
    (used : List Int) (chs : List ResolveChange) (envs : List (String × Int))
    (h : optStrTruthy pc.env_var = false) :
    resolveConflictLoop pr inUse ((key, pc) :: rest) used chs envs =
      resolveConflictLoop pr inUse rest used chs envs ∧
    resProjE (resolveAllConflicts {} (fun _ => false) c9Entries) =
      .ok [("svc_noenv", [], false), ("svc_env", [], false)] := by
  constructor
  · rw [resolveConflictLoop]
    simp [h]
  · rfl

/-- Witness for the C9 statement: a port config with no env_var at
all. -/
theorem c9_no_env_var_skipped_witness :
    optStrTruthy (PortConfig.mk 8000 none none "").env_var = false ∧
    (resolveConflictLoop {} (fun _ => false)
        [("api", PortConfig.mk 8000 none none "")] [] [] [] =
      resolveConflictLoop {} (fun _ => false) [] [] [] [] ∧
     resProjE (resolveAllConflicts {} (fun _ => false) c9Entries) =
      .ok [("svc_noenv", [], false), ("svc_env", [], false)]) :=
  ⟨rfl, c9_no_env_var_skipped {} (fun _ => false) "api" (PortConfig.mk 8000 none none "")
    [] [] [] [] rfl⟩

end ServiceAgent
